import Mathlib

/-!
Verification of the littlenavmap route-string subsystem snapshot.

The snapshot contains two source files:

  - src/common/maptypes.h          : the map data types (structs with
    isValid, getPosition, getId members);
  - src/routestring/routestringdialog.cpp : the dialog layer driving the
    route-string reader/writer (options copy loop, options persistence,
    clear-then-read of the flight plan).

The route-string reader (RouteStringReader::createRouteFromString), the
writer (RouteStringWriter::createStringForRoute), the token cleanup
helper (rs::cleanRouteString) and the rs::RouteStringOptions enum are
declared in headers that are not part of the snapshot; those parts are
modelled from the specification, as marked in the doc comments below.

Conventions of the embedding:

  - QString is List Char based: a Lean String (a structure over
    List Char), so every string operation reduces structurally;
  - C++ int is modelled as Int; float fields (headings, magnetic
    variation) are modelled as exact integers, since no verified claim
    depends on float rounding;
  - the QFlags-of-int options value is a Nat holding the 32 low bits of
    the underlying C++ int.
-/

namespace LNM

/-! ## Geometry primitives (atools::geo) -/

/-- Stand-in for the invalid ordinate value used by atools::geo::Pos
(the original uses the largest float). -/
def INVALID_ORDINATE : Int := 2147483647

/-- Geographic position (atools::geo::Pos), coordinates modelled as
exact integers. -/
structure Pos where
  lonX : Int
  latY : Int
deriving DecidableEq, Repr

/-- A Pos is valid when its ordinates differ from the invalid value,
following atools::geo::Pos::isValid. -/
def Pos.isValid (p : Pos) : Bool :=
  p.lonX != INVALID_ORDINATE && p.latY != INVALID_ORDINATE

/-- Rectangle (atools::geo::Rect) by two corner positions. -/
structure Rect where
  topLeft : Pos
  bottomRight : Pos
deriving DecidableEq, Repr

/-- Line string (atools::geo::LineString): a list of positions. -/
def LineString := List Pos
deriving DecidableEq

/-- Emptiness of a line string (QList::isEmpty). -/
def LineString.isEmpty (l : LineString) : Bool :=
  match l with
  | [] => true
  | _ :: _ => false

/-! ## Map data types (src/common/maptypes.h) -/

/-- map::MapAirport from maptypes.h. Frequencies and runway data are
plain ints; flags is the MapAirportFlags bit set. -/
structure MapAirport where
  ident : String
  name : String
  id : Int
  longestRunwayLength : Int := 0
  longestRunwayHeading : Int := 0
  flags : Nat := 0
  magvar : Int := 0
  towerFrequency : Int := 0
  atisFrequency : Int := 0
  awosFrequency : Int := 0
  asosFrequency : Int := 0
  unicomFrequency : Int := 0
  position : Pos
  towerCoords : Pos := ⟨INVALID_ORDINATE, INVALID_ORDINATE⟩
  bounding : Rect := ⟨⟨INVALID_ORDINATE, INVALID_ORDINATE⟩, ⟨INVALID_ORDINATE, INVALID_ORDINATE⟩⟩
  routeIndex : Int := -1
deriving DecidableEq, Repr

/-- MapAirport::isValid (maptypes.h line 211). -/
def MapAirport.isValid (a : MapAirport) : Bool :=
  a.position.isValid

/-- MapAirport::getPosition. -/
def MapAirport.getPosition (a : MapAirport) : Pos :=
  a.position

/-- MapAirport::getId. -/
def MapAirport.getId (a : MapAirport) : Int :=
  a.id

/-- map::MapRunway from maptypes.h. -/
structure MapRunway where
  surface : String
  primaryName : String
  secondaryName : String
  edgeLight : String
  length : Int
  primaryEndId : Int
  secondaryEndId : Int
  heading : Int
  width : Int
  primaryOffset : Int
  secondaryOffset : Int
  primaryBlastPad : Int
  secondaryBlastPad : Int
  primaryOverrun : Int
  secondaryOverrun : Int
  position : Pos
  primaryPosition : Pos
  secondaryPosition : Pos
  primaryClosed : Bool
  secondaryClosed : Bool
deriving DecidableEq, Repr

/-- MapRunway::isValid. -/
def MapRunway.isValid (r : MapRunway) : Bool :=
  r.position.isValid

/-- MapRunway::getPosition. -/
def MapRunway.getPosition (r : MapRunway) : Pos :=
  r.position

/-- MapRunway::getId (maptypes.h line 274): always -1. -/
def MapRunway.getId (_ : MapRunway) : Int :=
  -1

/-- map::MapRunwayEnd from maptypes.h. -/
structure MapRunwayEnd where
  name : String
  heading : Int
  position : Pos
  secondary : Bool
deriving DecidableEq, Repr

/-- MapRunwayEnd::isValid. -/
def MapRunwayEnd.isValid (r : MapRunwayEnd) : Bool :=
  r.position.isValid

/-- MapRunwayEnd::getPosition. -/
def MapRunwayEnd.getPosition (r : MapRunwayEnd) : Pos :=
  r.position

/-- MapRunwayEnd::getId (maptypes.h line 299): always -1. -/
def MapRunwayEnd.getId (_ : MapRunwayEnd) : Int :=
  -1

/-- map::MapApron from maptypes.h. -/
structure MapApron where
  vertices : LineString
  surface : String
  drawSurface : Bool
deriving DecidableEq

/-- MapApron::isValid: the vertex list is not empty. -/
def MapApron.isValid (a : MapApron) : Bool :=
  !a.vertices.isEmpty

/-- MapApron::getId (maptypes.h line 319): always -1. -/
def MapApron.getId (_ : MapApron) : Int :=
  -1

/-- map::MapTaxiPath from maptypes.h. -/
structure MapTaxiPath where
  start : Pos
  stop : Pos
  surface : String
  name : String
  width : Int
  drawSurface : Bool
  closed : Bool
deriving DecidableEq, Repr

/-- MapTaxiPath::isValid: the start position is valid. -/
def MapTaxiPath.isValid (t : MapTaxiPath) : Bool :=
  t.start.isValid

/-- MapTaxiPath::getId (maptypes.h line 339): always -1. -/
def MapTaxiPath.getId (_ : MapTaxiPath) : Int :=
  -1

/-- map::MapParking from maptypes.h; id is database id
parking.parking_id. -/
structure MapParking where
  type : String
  name : String
  airlineCodes : String
  id : Int
  airportId : Int
  position : Pos
  number : Int
  radius : Int
  heading : Int
  jetway : Bool
deriving DecidableEq, Repr

/-- MapParking::isValid. -/
def MapParking.isValid (p : MapParking) : Bool :=
  p.position.isValid

/-- MapParking::getPosition. -/
def MapParking.getPosition (p : MapParking) : Pos :=
  p.position

/-- MapParking::getId (maptypes.h line 365): always -1, it does not
return the database id field. -/
def MapParking.getId (_ : MapParking) : Int :=
  -1

/-- map::MapStart from maptypes.h. -/
structure MapStart where
  type : String
  runwayName : String
  id : Int
  airportId : Int
  position : Pos
  heading : Int
  helipadNumber : Int
deriving DecidableEq, Repr

/-- MapStart::isValid. -/
def MapStart.isValid (s : MapStart) : Bool :=
  s.position.isValid

/-- MapStart::getPosition. -/
def MapStart.getPosition (s : MapStart) : Pos :=
  s.position

/-- MapStart::getId: returns the database id. -/
def MapStart.getId (s : MapStart) : Int :=
  s.id

/-- map::MapHelipad from maptypes.h. -/
structure MapHelipad where
  surface : String
  type : String
  position : Pos
  length : Int
  width : Int
  heading : Int
  start : Int
  closed : Bool
  transparent : Bool
deriving DecidableEq, Repr

/-- MapHelipad::isValid. -/
def MapHelipad.isValid (h : MapHelipad) : Bool :=
  h.position.isValid

/-- MapHelipad::getId (maptypes.h line 415): always -1. -/
def MapHelipad.getId (_ : MapHelipad) : Int :=
  -1

/-- map::MapVor from maptypes.h. -/
structure MapVor where
  ident : String
  region : String
  type : String
  name : String
  id : Int
  magvar : Int
  frequency : Int
  range : Int
  position : Pos
  routeIndex : Int := -1
  dmeOnly : Bool
  hasDme : Bool
deriving DecidableEq, Repr

/-- MapVor::isValid. -/
def MapVor.isValid (v : MapVor) : Bool :=
  v.position.isValid

/-- MapVor::getPosition. -/
def MapVor.getPosition (v : MapVor) : Pos :=
  v.position

/-- MapVor::getId. -/
def MapVor.getId (v : MapVor) : Int :=
  v.id

/-- map::MapNdb from maptypes.h. -/
structure MapNdb where
  ident : String
  region : String
  type : String
  name : String
  id : Int
  magvar : Int
  frequency : Int
  range : Int
  position : Pos
  routeIndex : Int := -1
deriving DecidableEq, Repr

/-- MapNdb::isValid. -/
def MapNdb.isValid (n : MapNdb) : Bool :=
  n.position.isValid

/-- MapNdb::getPosition. -/
def MapNdb.getPosition (n : MapNdb) : Pos :=
  n.position

/-- MapNdb::getId. -/
def MapNdb.getId (n : MapNdb) : Int :=
  n.id

/-- map::MapWaypoint from maptypes.h. -/
structure MapWaypoint where
  id : Int
  magvar : Int
  ident : String
  region : String
  type : String
  position : Pos
  routeIndex : Int := -1
  hasVictorAirways : Bool := false
  hasJetAirways : Bool := false
deriving DecidableEq, Repr

/-- MapWaypoint::isValid (maptypes.h line 487). -/
def MapWaypoint.isValid (w : MapWaypoint) : Bool :=
  w.position.isValid

/-- MapWaypoint::getPosition. -/
def MapWaypoint.getPosition (w : MapWaypoint) : Pos :=
  w.position

/-- MapWaypoint::getId. -/
def MapWaypoint.getId (w : MapWaypoint) : Int :=
  w.id

/-- map::MapUserpoint from maptypes.h. -/
structure MapUserpoint where
  name : String
  id : Int
  position : Pos
  routeIndex : Int := -1
deriving DecidableEq, Repr

/-- MapUserpoint::isValid. -/
def MapUserpoint.isValid (u : MapUserpoint) : Bool :=
  u.position.isValid

/-- MapUserpoint::getPosition. -/
def MapUserpoint.getPosition (u : MapUserpoint) : Pos :=
  u.position

/-- MapUserpoint::getId. -/
def MapUserpoint.getId (u : MapUserpoint) : Int :=
  u.id

/-! ## Route string options (rs::RouteStringOptions)

Modelled from the spec: the rs::RouteStringOptions enum lives in
routestring/routestring.h, which is not part of the snapshot.  The
spec (section 3) and the dialog constructor (routestringdialog.cpp
lines 97 to 206) list the flags; each is a distinct single bit of the
underlying int, assigned here in the order the dialog adds its menu
actions. -/

inductive RSOption
  | START_AND_DEST
  | DCT
  | ALT_AND_SPEED
  | NO_AIRWAYS
  | ALTERNATES
  | SID_STAR
  | SID_STAR_GENERIC
  | SID_STAR_NONE
  | STAR_REV_TRANSITION
  | SID_STAR_SPACE
  | READ_ALTERNATES
  | READ_NO_AIRPORTS
  | READ_MATCH_WAYPOINTS
  | REPORT
deriving DecidableEq, Repr

/-- Bit index of each flag inside the int-backed flag set. -/
def RSOption.bitIndex : RSOption → Nat
  | .START_AND_DEST => 0
  | .DCT => 1
  | .ALT_AND_SPEED => 2
  | .NO_AIRWAYS => 3
  | .ALTERNATES => 4
  | .SID_STAR => 5
  | .SID_STAR_GENERIC => 6
  | .SID_STAR_NONE => 7
  | .STAR_REV_TRANSITION => 8
  | .SID_STAR_SPACE => 9
  | .READ_ALTERNATES => 10
  | .READ_NO_AIRPORTS => 11
  | .READ_MATCH_WAYPOINTS => 12
  | .REPORT => 13

/-- The single-bit value of a flag, as stored in QAction::data and in
the options int. -/
def RSOption.bit (f : RSOption) : Nat :=
  2 ^ f.bitIndex

/-- An options value: the 32 low bits of the underlying C++ int that
backs rs::RouteStringOptions (a QFlags). -/
def RouteStringOptions := Nat
deriving DecidableEq, Repr

/-- Flag query on an options value (QFlags operator and plus the
conversion to bool: nonzero intersection). -/
def hasOpt (o : Nat) (f : RSOption) : Bool :=
  (o &&& f.bit) != 0

/-- Bit width of the C++ int backing the flag set. -/
def optionsWidth : Nat := 32

/-- All 32 bits set: the mask against which the C++ operator tilde
complements an int-backed flag set. -/
def optionsMask : Nat := 2 ^ optionsWidth - 1

/-- The C++ expression options andEq complement(opts) on the
32-bit-backed flag set: clear in a the bits of b. -/
def andNot32 (a b : Nat) : Nat :=
  a &&& (optionsMask ^^^ b)

/-! ## Dialog option handling (routestringdialog.cpp) -/

/-- A checkable menu action of the options drop-down: its data int
(the flag bits) and its checked state. -/
structure MenuAction where
  flagBits : Nat
  checked : Bool
deriving DecidableEq, Repr

/-- RouteStringDialog::toolButtonOptionTriggered (routestringdialog.cpp
lines 244 to 263): walk all menu actions and copy the menu state into
the options bit field, or-ing in the flags of checked actions and
and-not-ing out the flags of unchecked ones. -/
def toolButtonOptionTriggered (acts : List MenuAction) (options : Nat) : Nat :=
  acts.foldl
    (fun opts act => if act.checked then opts ||| act.flagBits else andNot32 opts act.flagBits)
    options

/-- The flag-bit data of the menu actions built by the dialog
constructor (routestringdialog.cpp lines 97 to 206), in order; the
SID_STAR action is only added when the database has procedures. -/
def menuActionFlags (hasSidStarInDatabase : Bool) : List Nat :=
  [RSOption.START_AND_DEST.bit, RSOption.DCT.bit, RSOption.ALT_AND_SPEED.bit,
   RSOption.NO_AIRWAYS.bit, RSOption.ALTERNATES.bit]
  ++ (if hasSidStarInDatabase then [RSOption.SID_STAR.bit] else [])
  ++ [RSOption.SID_STAR_GENERIC.bit, RSOption.SID_STAR_NONE.bit,
      RSOption.STAR_REV_TRANSITION.bit, RSOption.SID_STAR_SPACE.bit,
      RSOption.READ_ALTERNATES.bit, RSOption.READ_NO_AIRPORTS.bit,
      RSOption.READ_MATCH_WAYPOINTS.bit]

/-- RouteStringDialog::updateButtonState (routestringdialog.cpp lines
377 to 381): check each menu action exactly when its flag intersects
the options value. -/
def updateButtonState (flags : List Nat) (options : Nat) : List MenuAction :=
  flags.map (fun f => ⟨f, (f &&& options) != 0⟩)

/-- Union of the flag bits of the checked actions. -/
def checkedUnion (acts : List MenuAction) : Nat :=
  match acts with
  | [] => 0
  | a :: rest => (if a.checked then a.flagBits else 0) ||| checkedUnion rest

/-- Union of the flag bits of all actions, checked or not. -/
def allFlagsUnion (acts : List MenuAction) : Nat :=
  match acts with
  | [] => 0
  | a :: rest => a.flagBits ||| allFlagsUnion rest

/-! ## Options persistence (routestringdialog.cpp lines 270 to 297) -/

/-- The static_cast of the options flag set to a C++ int, as stored by
RouteStringDialog::saveState: reinterpret the 32 bits as a signed
value. -/
def saveStateOptions (o : Nat) : Int :=
  if o < 2 ^ 31 then (o : Int) else (o : Int) - 2 ^ 32

/-- RouteStringDialog::getOptionsFromSettings: rebuild the flag set
from the persisted int (QFlags keeps the 32 bits of the int). -/
def getOptionsFromSettings (i : Int) : Nat :=
  (i % 2 ^ 32).toNat

/-! ## Token cleanup (rs::cleanRouteString)

Modelled from the spec: rs::cleanRouteString lives in
routestring/routestring.h and is not part of the snapshot.  Per spec
section 4.2 it is the pre-pass that strips punctuation noise from
pasted text, normalizes case and splits into whitespace-separated
tokens, returning a token list (the dialog joins it with single
spaces, routestringdialog.cpp line 332). -/

/-- Characters that may appear in a cleaned route token: upper-case
letters, digits, and the slash and dot used by coordinate and
procedure notation. -/
def isCleanChar (c : Char) : Bool :=
  c.isUpper || c.isDigit || c == '/' || c == '.'

/-- Normalization of one character: upper-case it, and replace any
character that is still not a clean token character by a space. -/
def normChar (c : Char) : Char :=
  let u := c.toUpper
  if isCleanChar u then u else ' '

/-- Split a character list at spaces, dropping empty segments; acc
accumulates the current token in reverse. -/
def tokenizeAcc : List Char → List Char → List (List Char)
  | [], acc => if acc.isEmpty then [] else [acc.reverse]
  | c :: cs, acc =>
    if c = ' ' then
      if acc.isEmpty then tokenizeAcc cs [] else acc.reverse :: tokenizeAcc cs []
    else
      tokenizeAcc cs (c :: acc)

/-- Split a character list into its space-separated tokens. -/
def tokenize (l : List Char) : List (List Char) :=
  tokenizeAcc l []

/-- rs::cleanRouteString modelled from the spec: normalize every
character, then split into tokens. -/
def cleanRouteString (s : String) : List String :=
  (tokenize (s.data.map normChar)).map (fun cs => ⟨cs⟩)

/-- QStringList::join with a single blank, on the character level
(used by the dialog to put the cleaned token list back into the text
edit). -/
def joinWordsChars : List (List Char) → List Char
  | [] => []
  | [t] => t
  | t :: ts => t ++ ' ' :: joinWordsChars ts

/-- QStringList::join with a single blank. -/
def joinWords (ts : List String) : String :=
  ⟨joinWordsChars (ts.map String.data)⟩

/-! ## Speed and altitude token -/

/-- One decimal digit as a character. -/
def digitChar : Nat → Char
  | 0 => '0'
  | 1 => '1'
  | 2 => '2'
  | 3 => '3'
  | 4 => '4'
  | 5 => '5'
  | 6 => '6'
  | 7 => '7'
  | 8 => '8'
  | _ => '9'

/-- Decimal digits of a number, most significant first; the fuel
argument bounds the recursion and any fuel above the number itself is
enough. -/
def natDigitsAux : Nat → Nat → List Char
  | 0, _ => []
  | fuel + 1, n =>
    if n < 10 then [digitChar n]
    else natDigitsAux fuel (n / 10) ++ [digitChar (n % 10)]

/-- Decimal digits of a number, most significant first. -/
def natDigits (n : Nat) : List Char :=
  natDigitsAux (n + 1) n

/-- Numeric value of a digit list. -/
def digitsToNat (ds : List Char) : Nat :=
  ds.foldl (fun n c => n * 10 + (c.toNat - 48)) 0

/-- The cruise speed and altitude token the writer emits, in the
N speed F flight-level style of the spec (altitude in feet becomes a
flight level by dividing by 100). -/
def speedAltToken (speed alt : Nat) : String :=
  ⟨'N' :: natDigits speed ++ 'F' :: natDigits (alt / 100)⟩

/-- Reader-side recognition of the speed and altitude instruction
token: the letter N, a nonempty digit run, the letter F, a nonempty
digit run; yields the cruise speed in knots and the altitude in feet.
Modelled from the spec (section 4.2, token class a). -/
def parseSpeedAlt (t : String) : Option (Nat × Nat) :=
  match t.data with
  | 'N' :: rest =>
    let ds := rest.takeWhile Char.isDigit
    match rest.dropWhile Char.isDigit with
    | 'F' :: rest2 =>
      if ds.isEmpty || rest2.isEmpty || !rest2.all Char.isDigit then none
      else some (digitsToNat ds, digitsToNat rest2 * 100)
    | _ => none
  | _ => none

/-! ## Navigation database collaborator

Modelled from the spec: the navigation database (section 6,
collaborator interfaces consumed) is external to the core; it provides
airport lookup by ident, waypoint candidates by ident, and airway
lookup by name with the ordered fix list. -/

/-- An airway record of the collaborator: name plus the ordered idents
of the fixes on it. -/
structure Airway where
  name : String
  fixes : List String
deriving DecidableEq, Repr

/-- The in-memory navigation database used for lookups. -/
structure NavDatabase where
  airports : List MapAirport
  waypoints : List MapWaypoint
  airways : List Airway
deriving DecidableEq, Repr

/-- Airport lookup by ICAO ident: first record with that ident, or
none. -/
def lookupAirport (db : NavDatabase) (ident : String) : Option MapAirport :=
  db.airports.find? (fun a => a.ident == ident)

/-- All waypoint records carrying the given ident. -/
def waypointCandidates (db : NavDatabase) (ident : String) : List MapWaypoint :=
  db.waypoints.filter (fun w => w.ident == ident)

/-- Airway lookup by name. -/
def lookupAirway (db : NavDatabase) (name : String) : Option Airway :=
  db.airways.find? (fun a => a.name == name)

/-- Squared Euclidean distance between two positions; the model's
stand-in for the great-circle distance used for disambiguation. -/
def dist2 (a b : Pos) : Int :=
  (a.lonX - b.lonX) * (a.lonX - b.lonX) + (a.latY - b.latY) * (a.latY - b.latY)

/-- Choice between two same-ident candidates: keep the one nearer to
the reference point, ties broken by ascending database id (spec
section 4.2, token class e). -/
def chooseBetter (ref : Pos) (a b : MapWaypoint) : MapWaypoint :=
  if dist2 b.position ref < dist2 a.position ref then b
  else if dist2 b.position ref = dist2 a.position ref ∧ b.id < a.id then b
  else a

/-- Resolve an ident against the waypoint table, disambiguating by
nearest distance to the reference point; without a reference point the
first candidate wins. -/
def resolveWaypoint (db : NavDatabase) (ref : Option Pos) (ident : String) : Option MapWaypoint :=
  match waypointCandidates db ident, ref with
  | [], _ => none
  | c :: cs, some p => some (cs.foldl (chooseBetter p) c)
  | c :: _, none => some c

/-! ## Flightplan and reader state

Modelled from the spec: atools::fs::pln::Flightplan (an ordered entry
list plus alternates) and the reader result of
RouteStringReader::createRouteFromString, neither of which is part of
the snapshot. -/

/-- One flight plan entry: the resolved ident, its position, and the
name of the airway arriving at it (empty for a direct leg). -/
structure FlightplanEntry where
  ident : String
  position : Pos
  airway : String
deriving DecidableEq, Repr

/-- The flight plan produced by the reader: ordered entries plus the
ordered alternate airport idents. -/
structure Flightplan where
  entries : List FlightplanEntry
  alternates : List String
deriving DecidableEq, Repr

/-- Flightplan::clear, as called by the dialog before each read
(routestringdialog.cpp line 309). -/
def Flightplan.clear (_ : Flightplan) : Flightplan :=
  ⟨[], []⟩

/-- Everything one read call returns: the plan, the ordered diagnostic
messages, the last parsed cruise speed, and whether an altitude was
explicitly included. -/
structure ReadResult where
  plan : Flightplan
  messages : List String
  speedKts : Option Nat
  altitudeIncluded : Bool
deriving DecidableEq, Repr

/-- Internal reader state while walking the token stream. -/
structure ReaderState where
  entries : List FlightplanEntry
  alternates : List String
  msgs : List String
  lastPos : Option Pos
  speed : Option Nat
  altIncluded : Bool
deriving DecidableEq, Repr

/-- The empty initial reader state. -/
def initialReaderState : ReaderState :=
  ⟨[], [], [], none, none, false⟩

/-- Ident of the last entry appended so far, if any. -/
def lastIdent (st : ReaderState) : Option String :=
  st.entries.getLast?.map (fun e => e.ident)

/-- Diagnostic for an ident found in no lookup table. -/
def unresolvedMsg (t : String) : String :=
  joinWords ["Nothing found for", t, "- ignoring."]

/-- Diagnostic for a first or last token that does not resolve to an
airport although the options require one. -/
def mandatoryAirportMsg (t : String) : String :=
  joinWords ["Airport", t, "not found."]

/-! ## Route string reader

Modelled from the spec: RouteStringReader::createRouteFromString
(section 4.2) is not part of the snapshot.  The model covers the token
classes the verified claims exercise: the DCT instruction, the speed
and altitude instruction, airway legs with lookahead to the entry fix,
and plain idents resolved against the waypoint table; raw coordinate
tokens and procedure names are outside the model. -/

/-- Append a resolved plain-ident entry, or record one diagnostic and
skip the token (spec section 4.2, token class e and the failure
policy). -/
def stepPlain (db : NavDatabase) (st : ReaderState) (t : String) : ReaderState :=
  match resolveWaypoint db st.lastPos t with
  | some w =>
    { st with entries := st.entries ++ [⟨w.ident, w.position, ""⟩], lastPos := some w.position }
  | none => { st with msgs := st.msgs ++ [unresolvedMsg t] }

/-- Append the entry fix of an airway leg, or record one diagnostic
and skip it. -/
def stepAirwayFix (db : NavDatabase) (st : ReaderState) (aw : Airway) (next : String) :
    ReaderState :=
  match resolveWaypoint db st.lastPos next with
  | some w =>
    { st with entries := st.entries ++ [⟨w.ident, w.position, aw.name⟩],
              lastPos := some w.position }
  | none => { st with msgs := st.msgs ++ [unresolvedMsg next] }

/-- One body token without lookahead: DCT is consumed as a modifier,
the speed and altitude pattern records the cruise data, anything else
is a plain ident. -/
def stepSingle (db : NavDatabase) (st : ReaderState) (t : String) : ReaderState :=
  if t = "DCT" then st
  else
    match parseSpeedAlt t with
    | some sa => { st with speed := some sa.1, altIncluded := true }
    | none => stepPlain db st t

/-- The EXPECT_BODY state of the reader: classify each token in the
precedence order of spec section 4.2, with one token of lookahead for
the airway case (an airway name counts only when the previous resolved
point lies on the airway and the next token is a fix on it). -/
def readBody (db : NavDatabase) : ReaderState → List String → ReaderState
  | st, [] => st
  | st, [t] => stepSingle db st t
  | st, t :: next :: rest =>
    if t = "DCT" then readBody db st (next :: rest)
    else
      match parseSpeedAlt t with
      | some sa => readBody db { st with speed := some sa.1, altIncluded := true } (next :: rest)
      | none =>
        match lookupAirway db t, lastIdent st with
        | some aw, some prev =>
          if prev ∈ aw.fixes ∧ next ∈ aw.fixes then
            readBody db (stepAirwayFix db st aw next) rest
          else readBody db (stepPlain db st t) (next :: rest)
        | _, _ => readBody db (stepPlain db st t) (next :: rest)

/-- The EXPECT_START state: unless READ_NO_AIRPORTS is set the first
token must resolve to an airport; on failure a diagnostic is recorded
and the token is treated as a body item (spec section 4.2). -/
def readStart (db : NavDatabase) (o : Nat) (st : ReaderState) (t : String) : ReaderState :=
  if hasOpt o RSOption.READ_NO_AIRPORTS then stepPlain db st t
  else
    match lookupAirport db t with
    | some ap =>
      { st with entries := st.entries ++ [⟨ap.ident, ap.position, ""⟩],
                lastPos := some ap.position }
    | none => stepPlain db { st with msgs := st.msgs ++ [mandatoryAirportMsg t] } t

/-- The EXPECT_END state: the last non-alternate token must resolve to
the destination airport unless READ_NO_AIRPORTS is set; on failure a
diagnostic is recorded and the token is treated as a body item. -/
def readEnd (db : NavDatabase) (o : Nat) (st : ReaderState) (t : String) : ReaderState :=
  if hasOpt o RSOption.READ_NO_AIRPORTS then stepPlain db st t
  else
    match lookupAirport db t with
    | some ap =>
      { st with entries := st.entries ++ [⟨ap.ident, ap.position, ""⟩],
                lastPos := some ap.position }
    | none => stepPlain db { st with msgs := st.msgs ++ [mandatoryAirportMsg t] } t

/-- Split the tokens after the start token into the main part (ending
in the destination) and the trailing alternates: when READ_ALTERNATES
is set and at least two trailing tokens resolve as airports, the first
of that trailing airport run stays the destination and the rest become
alternates (spec section 4.2, EXPECT_ALTERNATES). -/
def splitAlternates (db : NavDatabase) (o : Nat) (toks : List String) :
    List String × List String :=
  if hasOpt o RSOption.READ_ALTERNATES ∧ ¬hasOpt o RSOption.READ_NO_AIRPORTS then
    let sufLen := (toks.reverse.takeWhile (fun t => (lookupAirport db t).isSome)).length
    if 2 ≤ sufLen then
      (toks.take (toks.length - sufLen + 1), toks.drop (toks.length - sufLen + 1))
    else (toks, [])
  else (toks, [])

/-- Consume the trailing alternate tokens, each resolved as an
airport and appended to the alternates list. -/
def readAlternates (db : NavDatabase) (st : ReaderState) (ts : List String) : ReaderState :=
  ts.foldl
    (fun st t =>
      match lookupAirport db t with
      | some ap => { st with alternates := st.alternates ++ [ap.ident] }
      | none => { st with msgs := st.msgs ++ [unresolvedMsg t] })
    st

/-- The whole read operation, spec section 4.2: clean the text into
tokens, run the EXPECT_START, EXPECT_BODY, EXPECT_END and
EXPECT_ALTERNATES states in order, and return the best-effort plan
with the ordered diagnostics; empty input yields the empty result. -/
def readRouteString (db : NavDatabase) (text : String) (o : Nat) : ReadResult :=
  match cleanRouteString text with
  | [] => ⟨⟨[], []⟩, [], none, false⟩
  | first :: rest =>
    let st1 := readStart db o initialReaderState first
    let split := splitAlternates db o rest
    let st2 := readBody db st1 split.1.dropLast
    let st3 :=
      match split.1.getLast? with
      | some dest => readEnd db o st2 dest
      | none => st2
    let st4 := readAlternates db st3 split.2
    ⟨⟨st4.entries, st4.alternates⟩, st4.msgs, st4.speed, st4.altIncluded⟩

/-- RouteStringReader::createRouteFromString, modelled from the spec:
fill the passed flight plan with the parsed entries and return the
messages, the cruise speed and the altitude-included flag alongside
it. -/
def createRouteFromString (db : NavDatabase) (text : String) (o : Nat) (fp : Flightplan) :
    Flightplan × List String × Option Nat × Bool :=
  let r := readRouteString db text o
  (⟨fp.entries ++ r.plan.entries, fp.alternates ++ r.plan.alternates⟩,
   r.messages, r.speedKts, r.altitudeIncluded)

/-- RouteStringDialog::textChangedDelayed (routestringdialog.cpp lines
305 to 314): clear the dialog's flight plan, then read the current
text with the dialog options plus REPORT into it. -/
def textChangedDelayed (db : NavDatabase) (fp : Flightplan) (text : String) (o : Nat) :
    Flightplan × List String × Option Nat × Bool :=
  createRouteFromString db text (o ||| RSOption.REPORT.bit) (Flightplan.clear fp)

/-! ## Route string writer

Modelled from the spec: RouteStringWriter::createStringForRoute
(section 4.1) is not part of the snapshot.  The model covers routes
without procedures: departure, en-route legs each carrying an optional
airway name, destination, and alternates. -/

/-- One en-route leg of a structured route: the fix ident, its
position, and the airway arriving at it (empty for a direct leg). -/
structure RouteLeg where
  ident : String
  position : Pos
  airway : String
deriving DecidableEq, Repr

/-- A structured route without procedures. -/
structure Route where
  departure : MapAirport
  legs : List RouteLeg
  destination : MapAirport
  alternates : List MapAirport
deriving DecidableEq, Repr

/-- Tokens for the en-route legs (spec section 4.1 step 2): an airway
leg becomes the airway name followed by the exit fix; a direct leg
becomes the fix ident, preceded by DCT when the DCT option is set and
the previously emitted token was a fix. -/
def writeLegs (o : Nat) : Bool → List RouteLeg → List String
  | _, [] => []
  | prevIsFix, leg :: rest =>
    if leg.airway ≠ "" ∧ ¬hasOpt o RSOption.NO_AIRWAYS then
      leg.airway :: leg.ident :: writeLegs o true rest
    else if hasOpt o RSOption.DCT ∧ prevIsFix then
      "DCT" :: leg.ident :: writeLegs o true rest
    else
      leg.ident :: writeLegs o true rest

/-- The full token sequence the writer emits (spec section 4.1):
departure ident when START_AND_DEST is set, the cruise token when
ALT_AND_SPEED is set, the leg tokens, the destination ident when
START_AND_DEST is set, and the alternates when ALTERNATES is set. -/
def writeTokens (r : Route) (speed alt : Nat) (o : Nat) : List String :=
  (if hasOpt o RSOption.START_AND_DEST then [r.departure.ident] else [])
  ++ (if hasOpt o RSOption.ALT_AND_SPEED then [speedAltToken speed alt] else [])
  ++ writeLegs o (hasOpt o RSOption.START_AND_DEST) r.legs
  ++ (if hasOpt o RSOption.START_AND_DEST then [r.destination.ident] else [])
  ++ (if hasOpt o RSOption.ALTERNATES then r.alternates.map (fun a => a.ident) else [])

/-- RouteStringWriter::createStringForRoute, modelled from the spec:
the space-joined token sequence. -/
def createStringForRoute (r : Route) (speed alt : Nat) (o : Nat) : String :=
  joinWords (writeTokens r speed alt o)

/-! # Theorems -/

/-! ## Token cleanup lemmas -/

/-- A cleaned route token: nonempty and made of clean characters
only. -/
def isCleanToken (t : String) : Bool :=
  !t.data.isEmpty && t.data.all isCleanChar

/-- Clean characters are unchanged by upper-casing. -/
theorem toUpper_eq_self_of_clean (c : Char) (h : isCleanChar c = true) : c.toUpper = c := by
  have hno : ¬(c.toNat ≥ 97 ∧ c.toNat ≤ 122) := by
    unfold isCleanChar at h
    simp only [Bool.or_eq_true, beq_iff_eq] at h
    rcases h with ((h | h) | h) | h
    · unfold Char.isUpper at h
      simp only [Bool.and_eq_true, decide_eq_true_eq, ge_iff_le] at h
      have h1 : (65 : UInt32).toNat ≤ c.val.toNat := h.1
      have h2 : c.val.toNat ≤ (90 : UInt32).toNat := h.2
      have e1 : (65 : UInt32).toNat = 65 := rfl
      have e2 : (90 : UInt32).toNat = 90 := rfl
      show ¬(c.val.toNat ≥ 97 ∧ c.val.toNat ≤ 122)
      omega
    · unfold Char.isDigit at h
      simp only [Bool.and_eq_true, decide_eq_true_eq, ge_iff_le] at h
      have h1 : (48 : UInt32).toNat ≤ c.val.toNat := h.1
      have h2 : c.val.toNat ≤ (57 : UInt32).toNat := h.2
      have e1 : (48 : UInt32).toNat = 48 := rfl
      have e2 : (57 : UInt32).toNat = 57 := rfl
      show ¬(c.val.toNat ≥ 97 ∧ c.val.toNat ≤ 122)
      omega
    · subst h; decide
    · subst h; decide
  show (if c.toNat ≥ 97 ∧ c.toNat ≤ 122 then Char.ofNat (c.toNat - 32) else c) = c
  rw [if_neg hno]

/-- Normalization fixes clean characters. -/
theorem normChar_clean_fixed (c : Char) (h : isCleanChar c = true) : normChar c = c := by
  unfold normChar
  rw [toUpper_eq_self_of_clean c h]
  simp [h]

/-- Normalization yields a space or a clean character. -/
theorem normChar_space_or_clean (c : Char) :
    normChar c = ' ' ∨ isCleanChar (normChar c) = true := by
  unfold normChar
  by_cases hc : isCleanChar c.toUpper = true
  · right; simp [hc]
  · left; simp [hc]

/-- Clean characters are not spaces. -/
theorem clean_ne_space {c : Char} (h : isCleanChar c = true) : c ≠ ' ' := by
  intro he
  subst he
  exact absurd h (by decide)

/-- Unfolding: tokenizing from the empty list with an empty
accumulator. -/
theorem tokenizeAcc_nil_nil : tokenizeAcc [] [] = [] :=
  rfl

/-- Unfolding: tokenizing from the empty list flushes a nonempty
accumulator. -/
theorem tokenizeAcc_nil_cons (a : Char) (as : List Char) :
    tokenizeAcc [] (a :: as) = [(a :: as).reverse] := by
  simp [tokenizeAcc]

/-- Unfolding: a space with an empty accumulator is skipped. -/
theorem tokenizeAcc_space_nil (cs : List Char) :
    tokenizeAcc (' ' :: cs) [] = tokenizeAcc cs [] := by
  simp [tokenizeAcc]

/-- Unfolding: a space flushes a nonempty accumulator. -/
theorem tokenizeAcc_space_cons (cs : List Char) (a : Char) (as : List Char) :
    tokenizeAcc (' ' :: cs) (a :: as) = (a :: as).reverse :: tokenizeAcc cs [] := by
  simp [tokenizeAcc]

/-- Unfolding: a non-space character joins the accumulator. -/
theorem tokenizeAcc_nonspace (c : Char) (hc : c ≠ ' ') (cs acc : List Char) :
    tokenizeAcc (c :: cs) acc = tokenizeAcc cs (c :: acc) := by
  simp [tokenizeAcc, hc]

/-- Tokenizing a space-free run followed by a space emits the run (after
the pending accumulator) as one token. -/
theorem tokenizeAcc_append_space (u t : List Char) :
    ∀ acc, (∀ c ∈ t, c ≠ ' ') → (acc ≠ [] ∨ t ≠ []) →
      tokenizeAcc (t ++ ' ' :: u) acc = (acc.reverse ++ t) :: tokenizeAcc u [] := by
  induction t with
  | nil =>
    intro acc _ hne
    rcases hne with hne | hne
    · cases acc with
      | nil => exact absurd rfl hne
      | cons a as =>
        show tokenizeAcc (' ' :: u) (a :: as) = ((a :: as).reverse ++ []) :: tokenizeAcc u []
        rw [tokenizeAcc_space_cons, List.append_nil]
    · exact absurd rfl hne
  | cons c t ih =>
    intro acc hs _
    have hc : c ≠ ' ' := hs c (by simp)
    show tokenizeAcc (c :: (t ++ ' ' :: u)) acc = (acc.reverse ++ c :: t) :: tokenizeAcc u []
    rw [tokenizeAcc_nonspace c hc]
    rw [ih (c :: acc) (fun x hx => hs x (by simp [hx])) (Or.inl (by simp))]
    simp

/-- Tokenizing a trailing space-free run emits it as the final
token. -/
theorem tokenizeAcc_last (t : List Char) :
    ∀ acc, (∀ c ∈ t, c ≠ ' ') → (acc ≠ [] ∨ t ≠ []) →
      tokenizeAcc t acc = [acc.reverse ++ t] := by
  induction t with
  | nil =>
    intro acc _ hne
    rcases hne with hne | hne
    · cases acc with
      | nil => exact absurd rfl hne
      | cons a as => simp [tokenizeAcc]
    · exact absurd rfl hne
  | cons c t ih =>
    intro acc hs _
    have hc : c ≠ ' ' := hs c (by simp)
    rw [tokenizeAcc_nonspace c hc]
    rw [ih (c :: acc) (fun x hx => hs x (by simp [hx])) (Or.inl (by simp))]
    simp

/-- Tokenizing the single-space join of nonempty space-free tokens
returns exactly those tokens. -/
theorem tokenize_joinWordsChars :
    ∀ ts : List (List Char), (∀ t ∈ ts, t ≠ [] ∧ ∀ c ∈ t, c ≠ ' ') →
      tokenize (joinWordsChars ts) = ts := by
  intro ts
  induction ts with
  | nil => intro _; rfl
  | cons t rest ih =>
    intro h
    cases rest with
    | nil =>
      have ht := h t (by simp)
      unfold tokenize joinWordsChars
      rw [tokenizeAcc_last t [] ht.2 (Or.inr ht.1)]
      simp
    | cons t2 rest2 =>
      have ht := h t (by simp)
      have hj : joinWordsChars (t :: t2 :: rest2) = t ++ ' ' :: joinWordsChars (t2 :: rest2) :=
        rfl
      unfold tokenize
      rw [hj, tokenizeAcc_append_space _ t [] ht.2 (Or.inr ht.1)]
      simp only [List.reverse_nil, List.nil_append]
      congr 1
      exact ih (fun x hx => h x (by simp [hx]))

/-- Every token produced by the tokenizer is nonempty, space-free, and
made of input (or accumulator) characters. -/
theorem tokenizeAcc_sound :
    ∀ (l acc : List Char), (∀ c ∈ acc, c ≠ ' ') →
      ∀ t ∈ tokenizeAcc l acc, t ≠ [] ∧ ∀ c ∈ t, c ≠ ' ' ∧ (c ∈ l ∨ c ∈ acc) := by
  intro l
  induction l with
  | nil =>
    intro acc hacc t ht
    cases acc with
    | nil => simp [tokenizeAcc_nil_nil] at ht
    | cons a as =>
      rw [tokenizeAcc_nil_cons] at ht
      have hteq : t = (a :: as).reverse := by simpa using ht
      subst hteq
      refine ⟨by simp, fun c hc => ?_⟩
      have hm : c ∈ a :: as := List.mem_reverse.mp hc
      exact ⟨hacc c hm, Or.inr hm⟩
  | cons ch cs ih =>
    intro acc hacc t ht
    by_cases hch : ch = ' '
    · subst hch
      cases acc with
      | nil =>
        rw [tokenizeAcc_space_nil] at ht
        have hs := ih [] (by simp) t ht
        refine ⟨hs.1, fun c hc => ⟨(hs.2 c hc).1, ?_⟩⟩
        rcases (hs.2 c hc).2 with h | h
        · exact Or.inl (by simp [h])
        · simp at h
      | cons a as =>
        rw [tokenizeAcc_space_cons] at ht
        rcases List.mem_cons.mp ht with hteq | ht
        · subst hteq
          refine ⟨by simp, fun c hc => ?_⟩
          have hm : c ∈ a :: as := List.mem_reverse.mp hc
          exact ⟨hacc c hm, Or.inr hm⟩
        · have hs := ih [] (by simp) t ht
          refine ⟨hs.1, fun c hc => ⟨(hs.2 c hc).1, ?_⟩⟩
          rcases (hs.2 c hc).2 with h | h
          · exact Or.inl (by simp [h])
          · simp at h
    · rw [tokenizeAcc_nonspace ch hch] at ht
      have hacc2 : ∀ c ∈ ch :: acc, c ≠ ' ' := by
        intro c hc
        rcases List.mem_cons.mp hc with h | h
        · subst h; exact hch
        · exact hacc c h
      have hs := ih (ch :: acc) hacc2 t ht
      refine ⟨hs.1, fun c hc => ⟨(hs.2 c hc).1, ?_⟩⟩
      rcases (hs.2 c hc).2 with h | h
      · exact Or.inl (by simp [h])
      · rcases List.mem_cons.mp h with h | h
        · exact Or.inl (by simp [h])
        · exact Or.inr h

/-- Character normalization distributes over the single-space join. -/
theorem map_normChar_joinWordsChars :
    ∀ ll : List (List Char),
      (joinWordsChars ll).map normChar = joinWordsChars (ll.map (List.map normChar)) := by
  intro ll
  induction ll with
  | nil => rfl
  | cons t rest ih =>
    cases rest with
    | nil => rfl
    | cons t2 r2 =>
      have hsp : normChar ' ' = ' ' := by decide
      show (t ++ ' ' :: joinWordsChars (t2 :: r2)).map normChar = _
      simp only [List.map_append, List.map_cons, hsp, ih]
      rfl

/-- Cleaning the single-space join of clean tokens returns exactly
those tokens. -/
theorem cleanRouteString_joinWords (ts : List String)
    (h : ∀ t ∈ ts, isCleanToken t = true) :
    cleanRouteString (joinWords ts) = ts := by
  unfold cleanRouteString joinWords
  show (tokenize ((joinWordsChars (ts.map String.data)).map normChar)).map
      (fun cs => (⟨cs⟩ : String)) = ts
  rw [map_normChar_joinWordsChars]
  have hfix : (ts.map String.data).map (List.map normChar) = ts.map String.data := by
    rw [List.map_map]
    apply List.map_congr_left
    intro s hs
    have hclean := h s hs
    unfold isCleanToken at hclean
    simp only [Bool.and_eq_true, List.all_eq_true] at hclean
    show (s.data).map normChar = s.data
    calc s.data.map normChar
        = s.data.map id := List.map_congr_left (fun c hc => normChar_clean_fixed c (hclean.2 c hc))
      _ = s.data := List.map_id s.data
  rw [hfix]
  have hcl : ∀ t ∈ ts.map String.data, t ≠ [] ∧ ∀ c ∈ t, c ≠ ' ' := by
    intro t ht
    rcases List.mem_map.mp ht with ⟨s, hs, rfl⟩
    have hclean := h s hs
    unfold isCleanToken at hclean
    simp only [Bool.and_eq_true, List.all_eq_true, Bool.not_eq_true', List.isEmpty_eq_false]
      at hclean
    exact ⟨hclean.1, fun c hc => clean_ne_space (hclean.2 c hc)⟩
  rw [tokenize_joinWordsChars (ts.map String.data) hcl]
  rw [List.map_map]
  calc ts.map ((fun cs => (⟨cs⟩ : String)) ∘ String.data)
      = ts.map id := List.map_congr_left (fun s _ => rfl)
    _ = ts := List.map_id ts

/-- Every token of a cleaned route string is a clean token. -/
theorem cleanRouteString_tokens_clean (s : String) :
    ∀ t ∈ cleanRouteString s, isCleanToken t = true := by
  intro t ht
  unfold cleanRouteString at ht
  rcases List.mem_map.mp ht with ⟨cs, hcs, rfl⟩
  have hs := tokenizeAcc_sound (s.data.map normChar) [] (by simp) cs hcs
  unfold isCleanToken
  simp only [Bool.and_eq_true, Bool.not_eq_true', List.isEmpty_eq_false, List.all_eq_true]
  refine ⟨hs.1, fun c hc => ?_⟩
  have hcp := hs.2 c hc
  rcases hcp.2 with hin | hin
  · rcases List.mem_map.mp hin with ⟨x, _, rfl⟩
    rcases normChar_space_or_clean x with hsp | hcl
    · exact absurd hsp hcp.1
    · exact hcl
  · simp at hin

/-- C7: cleanRouteString is idempotent: cleaning the space-joined
result of a clean pass returns the same token list. -/
theorem cleanRouteString_idempotent (s : String) :
    cleanRouteString (joinWords (cleanRouteString s)) = cleanRouteString s :=
  cleanRouteString_joinWords (cleanRouteString s) (cleanRouteString_tokens_clean s)

/-! ## Reader step lemmas -/

/-- Unfolding: the body state on an empty token list. -/
theorem readBody_nil (db : NavDatabase) (st : ReaderState) : readBody db st [] = st :=
  rfl

/-- Unfolding: the body state on a single token. -/
theorem readBody_single (db : NavDatabase) (st : ReaderState) (t : String) :
    readBody db st [t] = stepSingle db st t :=
  rfl

/-- Unfolding: a DCT instruction is consumed as a modifier. -/
theorem readBody_dct (db : NavDatabase) (st : ReaderState) (next : String) (rest : List String) :
    readBody db st ("DCT" :: next :: rest) = readBody db st (next :: rest) := by
  simp [readBody]

/-- Unfolding: a speed and altitude instruction records the cruise
data. -/
theorem readBody_speedAlt (db : NavDatabase) (st : ReaderState) (t next : String)
    (rest : List String) (sa : Nat × Nat) (h1 : t ≠ "DCT") (h2 : parseSpeedAlt t = some sa) :
    readBody db st (t :: next :: rest) =
      readBody db { st with speed := some sa.1, altIncluded := true } (next :: rest) := by
  rw [readBody, if_neg h1, h2]

/-- Unfolding: an airway name adjacent to a fix on the airway consumes
the following token as the airway leg entry fix. -/
theorem readBody_airway (db : NavDatabase) (st : ReaderState) (t next : String)
    (rest : List String) (aw : Airway) (prev : String) (h1 : t ≠ "DCT")
    (h2 : parseSpeedAlt t = none) (h3 : lookupAirway db t = some aw)
    (h4 : lastIdent st = some prev) (h5 : prev ∈ aw.fixes ∧ next ∈ aw.fixes) :
    readBody db st (t :: next :: rest) = readBody db (stepAirwayFix db st aw next) rest := by
  rw [readBody, if_neg h1, h2, h3, h4]
  show (if prev ∈ aw.fixes ∧ next ∈ aw.fixes then readBody db (stepAirwayFix db st aw next) rest
        else readBody db (stepPlain db st t) (next :: rest)) =
      readBody db (stepAirwayFix db st aw next) rest
  rw [if_pos h5]

/-- Unfolding: a token that is no instruction and no airway name is
handled as a plain ident. -/
theorem readBody_plain (db : NavDatabase) (st : ReaderState) (t next : String)
    (rest : List String) (h1 : t ≠ "DCT") (h2 : parseSpeedAlt t = none)
    (h3 : lookupAirway db t = none) :
    readBody db st (t :: next :: rest) = readBody db (stepPlain db st t) (next :: rest) := by
  rw [readBody, if_neg h1, h2, h3]

/-- An unresolved plain token turns the step into a pure
one-diagnostic append. -/
theorem stepPlain_unresolved (db : NavDatabase) (st : ReaderState) (t : String)
    (h : resolveWaypoint db st.lastPos t = none) :
    stepPlain db st t = { st with msgs := st.msgs ++ [unresolvedMsg t] } := by
  unfold stepPlain
  rw [h]

/-- Helper: an unresolved body token appends one diagnostic, keeps the
entries, and the walk continues with the remaining tokens. -/
theorem unresolved_skip_aux (db : NavDatabase) (st : ReaderState) (t : String)
    (rest : List String) (h1 : t ≠ "DCT") (h2 : parseSpeedAlt t = none)
    (h3 : lookupAirway db t = none) (h4 : resolveWaypoint db st.lastPos t = none) :
    readBody db st (t :: rest) =
      readBody db { st with msgs := st.msgs ++ [unresolvedMsg t] } rest := by
  cases rest with
  | nil =>
    rw [readBody_single, readBody_nil]
    unfold stepSingle
    rw [if_neg h1, h2, stepPlain_unresolved db st t h4]
  | cons next rest2 =>
    rw [readBody_plain db st t next rest2 h1 h2 h3, stepPlain_unresolved db st t h4]

/-- A resolved plain token turns the step into a pure entry append
without any diagnostic. -/
theorem stepPlain_resolved (db : NavDatabase) (st : ReaderState) (t : String) (w : MapWaypoint)
    (h : resolveWaypoint db st.lastPos t = some w) :
    stepPlain db st t =
      { st with entries := st.entries ++ [⟨w.ident, w.position, ""⟩],
                lastPos := some w.position } := by
  unfold stepPlain
  rw [h]

/-- Helper: a resolvable body token is appended as an entry without a
diagnostic, and the walk continues with the remaining tokens. -/
theorem ambiguous_insert_aux (db : NavDatabase) (st : ReaderState) (t : String)
    (rest : List String) (w : MapWaypoint) (h1 : t ≠ "DCT") (h2 : parseSpeedAlt t = none)
    (h3 : lookupAirway db t = none) (h4 : resolveWaypoint db st.lastPos t = some w) :
    readBody db st (t :: rest) =
      readBody db { st with entries := st.entries ++ [⟨w.ident, w.position, ""⟩],
                            lastPos := some w.position } rest := by
  cases rest with
  | nil =>
    rw [readBody_single, readBody_nil]
    unfold stepSingle
    rw [if_neg h1, h2, stepPlain_resolved db st t w h4]
  | cons next rest2 =>
    rw [readBody_plain db st t next rest2 h1 h2 h3, stepPlain_resolved db st t w h4]

/-- Departure airport of the ambiguity example. -/
def apAmbDep : MapAirport :=
  { ident := "KJFK", name := "Kennedy", id := 1, position := ⟨10, 20⟩ }

/-- Destination airport of the ambiguity example. -/
def apAmbDest : MapAirport :=
  { ident := "KBOS", name := "Boston", id := 2, position := ⟨30, 40⟩ }

/-- First of two same-ident waypoints, nearer to the departure. -/
def wpABCnear : MapWaypoint :=
  { id := 20, magvar := 0, ident := "ABC", region := "K6", type := "NAMED",
    position := ⟨12, 22⟩ }

/-- Second of two same-ident waypoints, farther from the departure. -/
def wpABCfar : MapWaypoint :=
  { id := 21, magvar := 0, ident := "ABC", region := "K6", type := "NAMED",
    position := ⟨100, 200⟩ }

/-- Database with an ambiguous ident: two waypoints named ABC. -/
def dbAmb : NavDatabase :=
  { airports := [apAmbDep, apAmbDest], waypoints := [wpABCnear, wpABCfar], airways := [] }

/-- Counterexample for C2 as stated: the token ABC is ambiguous (two
candidates), yet the read inserts its nearest-distance resolution into
the entry sequence and produces no diagnostic at all — an ambiguous
token is neither skipped nor reported. -/
theorem reader_ambiguous_token_counterexample :
    (waypointCandidates dbAmb "ABC").length = 2 ∧
    (readRouteString dbAmb "KJFK ABC KBOS" 0).messages = [] ∧
    (readRouteString dbAmb "KJFK ABC KBOS" 0).plan.entries =
      [⟨"KJFK", ⟨10, 20⟩, ""⟩, ⟨"ABC", ⟨12, 22⟩, ""⟩, ⟨"KBOS", ⟨30, 40⟩, ""⟩] := by
  decide

/-- C2 (amended): the read operation is total; a body token resolved
in no lookup table produces exactly one diagnostic, is skipped without
touching the entries, and parsing continues; a token with waypoint
candidates — the ambiguous ones included — is instead resolved and
appended as an entry without a diagnostic, and parsing continues. -/
theorem reader_failure_policy (db : NavDatabase) (st : ReaderState) (t : String)
    (rest : List String) (h1 : t ≠ "DCT") (h2 : parseSpeedAlt t = none)
    (h3 : lookupAirway db t = none) :
    (resolveWaypoint db st.lastPos t = none →
      readBody db st (t :: rest) =
        readBody db { st with msgs := st.msgs ++ [unresolvedMsg t] } rest) ∧
    (∀ w : MapWaypoint, resolveWaypoint db st.lastPos t = some w →
      readBody db st (t :: rest) =
        readBody db { st with entries := st.entries ++ [⟨w.ident, w.position, ""⟩],
                              lastPos := some w.position } rest) :=
  ⟨fun h4 => unresolved_skip_aux db st t rest h1 h2 h3 h4,
   fun w h4 => ambiguous_insert_aux db st t rest w h1 h2 h3 h4⟩

/-- Witness for the amended C2: the unknown token XYZ over an empty
database is dropped with one diagnostic, and the ambiguous token ABC
is inserted as its nearest candidate without one. -/
theorem reader_failure_policy_witness :
    (("XYZ" : String) ≠ "DCT" ∧ parseSpeedAlt "XYZ" = none ∧
     lookupAirway ⟨[], [], []⟩ "XYZ" = none ∧
     resolveWaypoint ⟨[], [], []⟩ initialReaderState.lastPos "XYZ" = none ∧
     readBody ⟨[], [], []⟩ initialReaderState ["XYZ"] =
       readBody ⟨[], [], []⟩
         { initialReaderState with msgs := initialReaderState.msgs ++ [unresolvedMsg "XYZ"] }
         []) ∧
    (("ABC" : String) ≠ "DCT" ∧ parseSpeedAlt "ABC" = none ∧
     lookupAirway dbAmb "ABC" = none ∧
     resolveWaypoint dbAmb (some ⟨10, 20⟩) "ABC" = some wpABCnear ∧
     readBody dbAmb ⟨[⟨"KJFK", ⟨10, 20⟩, ""⟩], [], [], some ⟨10, 20⟩, none, false⟩ ["ABC"] =
       readBody dbAmb
         ⟨[⟨"KJFK", ⟨10, 20⟩, ""⟩, ⟨"ABC", ⟨12, 22⟩, ""⟩], [], [], some ⟨12, 22⟩, none, false⟩
         []) :=
  ⟨⟨by decide, by decide, by decide, by decide,
    (reader_failure_policy ⟨[], [], []⟩ initialReaderState "XYZ" []
      (by decide) (by decide) (by decide)).1 (by decide)⟩,
   ⟨by decide, by decide, by decide, by decide,
    (reader_failure_policy dbAmb ⟨[⟨"KJFK", ⟨10, 20⟩, ""⟩], [], [], some ⟨10, 20⟩, none, false⟩
      "ABC" [] (by decide) (by decide) (by decide)).2 wpABCnear (by decide)⟩⟩

/-! ## Resolution and validity lemmas -/

/-- Well-formed navigation database: every stored airport and waypoint
carries a valid position (spec section 3, data-model invariant for the
collaborator). -/
def WfDb (db : NavDatabase) : Prop :=
  (∀ a ∈ db.airports, a.position.isValid = true) ∧
  (∀ w ∈ db.waypoints, w.position.isValid = true)

/-- A found airport is a database airport. -/
theorem lookupAirport_mem (db : NavDatabase) (ident : String) (a : MapAirport)
    (h : lookupAirport db ident = some a) : a ∈ db.airports :=
  List.mem_of_find?_eq_some h

/-- chooseBetter returns one of its two arguments. -/
theorem chooseBetter_eq_or (p : Pos) (a b : MapWaypoint) :
    chooseBetter p a b = a ∨ chooseBetter p a b = b := by
  unfold chooseBetter
  split
  · exact Or.inr rfl
  split
  · exact Or.inr rfl
  · exact Or.inl rfl

/-- The fold of chooseBetter stays among the candidates. -/
theorem foldl_chooseBetter_mem (p : Pos) :
    ∀ (cs : List MapWaypoint) (x : MapWaypoint),
      cs.foldl (chooseBetter p) x = x ∨ cs.foldl (chooseBetter p) x ∈ cs := by
  intro cs
  induction cs with
  | nil => intro x; exact Or.inl rfl
  | cons c cs ih =>
    intro x
    rw [List.foldl_cons]
    rcases ih (chooseBetter p x c) with h | h
    · rcases chooseBetter_eq_or p x c with h2 | h2
      · exact Or.inl (by rw [h, h2])
      · right
        rw [h, h2]
        simp
    · right
      simp [h]

/-- The fold of chooseBetter minimizes the distance to the reference
point over the seed and the candidates. -/
theorem foldl_chooseBetter_min (p : Pos) :
    ∀ (cs : List MapWaypoint) (x : MapWaypoint),
      dist2 (cs.foldl (chooseBetter p) x).position p ≤ dist2 x.position p ∧
      ∀ c ∈ cs, dist2 (cs.foldl (chooseBetter p) x).position p ≤ dist2 c.position p := by
  intro cs
  induction cs with
  | nil =>
    intro x
    exact ⟨le_refl _, by simp⟩
  | cons c cs ih =>
    intro x
    have hcb : dist2 (chooseBetter p x c).position p ≤ dist2 x.position p ∧
        dist2 (chooseBetter p x c).position p ≤ dist2 c.position p := by
      unfold chooseBetter
      split
      · constructor
        · omega
        · exact le_refl _
      split
      · constructor
        · omega
        · exact le_refl _
      · constructor
        · exact le_refl _
        · omega
    rw [List.foldl_cons]
    rcases ih (chooseBetter p x c) with ⟨h1, h2⟩
    refine ⟨le_trans h1 hcb.1, ?_⟩
    intro d hd
    rcases List.mem_cons.mp hd with h | h
    · subst h
      exact le_trans h1 hcb.2
    · exact h2 d h

/-- A resolved waypoint is a database waypoint. -/
theorem resolveWaypoint_mem (db : NavDatabase) (ref : Option Pos) (ident : String)
    (w : MapWaypoint) (h : resolveWaypoint db ref ident = some w) : w ∈ db.waypoints := by
  unfold resolveWaypoint at h
  have hsub : w ∈ waypointCandidates db ident := by
    cases hw : waypointCandidates db ident with
    | nil => rw [hw] at h; cases h
    | cons c cs =>
      rw [hw] at h
      cases ref with
      | none =>
        simp only [Option.some.injEq] at h
        subst h
        simp
      | some p =>
        simp only [Option.some.injEq] at h
        subst h
        rcases foldl_chooseBetter_mem p cs c with h | h
        · rw [h]; simp
        · simp [h]
  exact List.mem_of_mem_filter hsub

/-- Disambiguation is by minimum distance: a waypoint resolved against
a reference point is a candidate of its ident at minimum distance to
that point. -/
theorem resolveWaypoint_nearest (db : NavDatabase) (p : Pos) (ident : String) (w : MapWaypoint)
    (h : resolveWaypoint db (some p) ident = some w) :
    w ∈ waypointCandidates db ident ∧
      ∀ c ∈ waypointCandidates db ident, dist2 w.position p ≤ dist2 c.position p := by
  unfold resolveWaypoint at h
  cases hw : waypointCandidates db ident with
  | nil => rw [hw] at h; cases h
  | cons c cs =>
    rw [hw] at h
    simp only [Option.some.injEq] at h
    subst h
    constructor
    · rcases foldl_chooseBetter_mem p cs c with h | h
      · rw [h]; simp
      · simp [h]
    · intro d hd
      have hmin := foldl_chooseBetter_min p cs c
      rcases List.mem_cons.mp hd with h | h
      · subst h
        exact hmin.1
      · exact hmin.2 d h

/-- All entries of a reader state have valid positions. -/
def entriesValid (st : ReaderState) : Prop :=
  ∀ e ∈ st.entries, e.position.isValid = true

/-- stepPlain preserves entry validity over a well-formed database. -/
theorem stepPlain_valid (db : NavDatabase) (st : ReaderState) (t : String) (hdb : WfDb db)
    (hst : entriesValid st) : entriesValid (stepPlain db st t) := by
  unfold stepPlain
  cases hres : resolveWaypoint db st.lastPos t with
  | none => exact fun e he => hst e he
  | some w =>
    intro e he
    simp only [List.mem_append, List.mem_singleton] at he
    rcases he with he | he
    · exact hst e he
    · subst he
      exact hdb.2 w (resolveWaypoint_mem db st.lastPos t w hres)

/-- stepAirwayFix preserves entry validity over a well-formed
database. -/
theorem stepAirwayFix_valid (db : NavDatabase) (st : ReaderState) (aw : Airway) (next : String)
    (hdb : WfDb db) (hst : entriesValid st) : entriesValid (stepAirwayFix db st aw next) := by
  unfold stepAirwayFix
  cases hres : resolveWaypoint db st.lastPos next with
  | none => exact fun e he => hst e he
  | some w =>
    intro e he
    simp only [List.mem_append, List.mem_singleton] at he
    rcases he with he | he
    · exact hst e he
    · subst he
      exact hdb.2 w (resolveWaypoint_mem db st.lastPos next w hres)

/-- stepSingle preserves entry validity over a well-formed
database. -/
theorem stepSingle_valid (db : NavDatabase) (st : ReaderState) (t : String) (hdb : WfDb db)
    (hst : entriesValid st) : entriesValid (stepSingle db st t) := by
  unfold stepSingle
  split
  · exact hst
  split
  · exact fun e he => hst e he
  · exact stepPlain_valid db st t hdb hst

/-- Unfolding: an airway name whose adjacency condition fails falls
back to the plain-ident rule. -/
theorem readBody_airway_nomatch (db : NavDatabase) (st : ReaderState) (t next : String)
    (rest : List String) (aw : Airway) (prev : String) (h1 : t ≠ "DCT")
    (h2 : parseSpeedAlt t = none) (h3 : lookupAirway db t = some aw)
    (h4 : lastIdent st = some prev) (h5 : ¬(prev ∈ aw.fixes ∧ next ∈ aw.fixes)) :
    readBody db st (t :: next :: rest) = readBody db (stepPlain db st t) (next :: rest) := by
  rw [readBody, if_neg h1, h2, h3, h4]
  show (if prev ∈ aw.fixes ∧ next ∈ aw.fixes then readBody db (stepAirwayFix db st aw next) rest
        else readBody db (stepPlain db st t) (next :: rest)) =
      readBody db (stepPlain db st t) (next :: rest)
  rw [if_neg h5]

/-- Unfolding: without an applicable airway and previous point the
token falls to the plain-ident rule. -/
theorem readBody_plain_fallback (db : NavDatabase) (st : ReaderState) (t next : String)
    (rest : List String) (h1 : t ≠ "DCT") (h2 : parseSpeedAlt t = none)
    (h3 : ∀ aw prev, lookupAirway db t = some aw → lastIdent st = some prev → False) :
    readBody db st (t :: next :: rest) = readBody db (stepPlain db st t) (next :: rest) := by
  rw [readBody, if_neg h1, h2]
  cases haw : lookupAirway db t with
  | none => rfl
  | some aw =>
    cases hli : lastIdent st with
    | none => rfl
    | some prev => exact (h3 aw prev haw hli).elim

/-- The whole body walk preserves entry validity over a well-formed
database. -/
theorem readBody_valid (db : NavDatabase) (hdb : WfDb db) :
    ∀ (st : ReaderState) (ts : List String), entriesValid st → entriesValid (readBody db st ts) := by
  intro st ts
  induction st, ts using readBody.induct db with
  | case1 st => exact fun h => h
  | case2 st t =>
    intro h
    rw [readBody_single]
    exact stepSingle_valid db st t hdb h
  | case3 st next rest ih =>
    intro h
    rw [readBody_dct]
    exact ih h
  | case4 st t next rest h1 sa h2 ih =>
    intro h
    rw [readBody_speedAlt db st t next rest sa h1 h2]
    exact ih (fun e he => h e he)
  | case5 st t next rest h1 h2 aw prev h3 h4 h5 ih =>
    intro h
    rw [readBody_airway db st t next rest aw prev h1 h2 h4 h3 h5]
    exact ih (stepAirwayFix_valid db st aw next hdb h)
  | case6 st t next rest h1 h2 aw prev h3 h4 h5 ih =>
    intro h
    rw [readBody_airway_nomatch db st t next rest aw prev h1 h2 h4 h3 h5]
    exact ih (stepPlain_valid db st t hdb h)
  | case7 st t next rest h1 h2 h3 ih =>
    intro h
    rw [readBody_plain_fallback db st t next rest h1 h2
      (fun aw prev haw hli => h3 aw prev haw hli)]
    exact ih (stepPlain_valid db st t hdb h)

/-- readStart preserves entry validity over a well-formed database. -/
theorem readStart_valid (db : NavDatabase) (o : Nat) (st : ReaderState) (t : String)
    (hdb : WfDb db) (hst : entriesValid st) : entriesValid (readStart db o st t) := by
  unfold readStart
  split
  · exact stepPlain_valid db st t hdb hst
  · cases hap : lookupAirport db t with
    | some ap =>
      intro e he
      simp only [List.mem_append, List.mem_singleton] at he
      rcases he with he | he
      · exact hst e he
      · subst he
        exact hdb.1 ap (lookupAirport_mem db t ap hap)
    | none =>
      exact stepPlain_valid db { st with msgs := st.msgs ++ [mandatoryAirportMsg t] } t hdb
        (fun e he => hst e he)

/-- readEnd preserves entry validity over a well-formed database. -/
theorem readEnd_valid (db : NavDatabase) (o : Nat) (st : ReaderState) (t : String)
    (hdb : WfDb db) (hst : entriesValid st) : entriesValid (readEnd db o st t) := by
  unfold readEnd
  split
  · exact stepPlain_valid db st t hdb hst
  · cases hap : lookupAirport db t with
    | some ap =>
      intro e he
      simp only [List.mem_append, List.mem_singleton] at he
      rcases he with he | he
      · exact hst e he
      · subst he
        exact hdb.1 ap (lookupAirport_mem db t ap hap)
    | none =>
      exact stepPlain_valid db { st with msgs := st.msgs ++ [mandatoryAirportMsg t] } t hdb
        (fun e he => hst e he)

/-- The alternates scan never touches the entry list. -/
theorem readAlternates_entries (db : NavDatabase) :
    ∀ (ts : List String) (st : ReaderState), (readAlternates db st ts).entries = st.entries := by
  intro ts
  induction ts with
  | nil => intro st; rfl
  | cons t ts ih =>
    intro st
    show (readAlternates db _ ts).entries = st.entries
    rw [ih]
    cases hap : lookupAirport db t <;> simp [hap]

/-- Every entry of a completed read over a well-formed database has a
valid position. -/
theorem readRouteString_valid (db : NavDatabase) (hdb : WfDb db) (text : String) (o : Nat) :
    ∀ e ∈ (readRouteString db text o).plan.entries, e.position.isValid = true := by
  unfold readRouteString
  cases h : cleanRouteString text with
  | nil => intro e he; simp at he
  | cons first rest =>
    have h1 : entriesValid (readStart db o initialReaderState first) :=
      readStart_valid db o initialReaderState first hdb
        (fun e he => by simp [initialReaderState] at he)
    have h2 : entriesValid
        (readBody db (readStart db o initialReaderState first)
          (splitAlternates db o rest).1.dropLast) :=
      readBody_valid db hdb _ _ h1
    have h3 : entriesValid
        (match (splitAlternates db o rest).1.getLast? with
         | some dest =>
           readEnd db o
             (readBody db (readStart db o initialReaderState first)
               (splitAlternates db o rest).1.dropLast) dest
         | none =>
           readBody db (readStart db o initialReaderState first)
             (splitAlternates db o rest).1.dropLast) := by
      cases (splitAlternates db o rest).1.getLast? with
      | some dest => exact readEnd_valid db o _ dest hdb h2
      | none => exact h2
    intro e he
    have he2 : e ∈ (readAlternates db
        (match (splitAlternates db o rest).1.getLast? with
         | some dest =>
           readEnd db o
             (readBody db (readStart db o initialReaderState first)
               (splitAlternates db o rest).1.dropLast) dest
         | none =>
           readBody db (readStart db o initialReaderState first)
             (splitAlternates db o rest).1.dropLast)
        (splitAlternates db o rest).2).entries := he
    rw [readAlternates_entries] at he2
    exact h3 e he2

/-- Concrete database for witnesses: one airport and one waypoint,
both with valid positions. -/
def dbW : NavDatabase :=
  { airports := [{ ident := "KJFK", name := "Kennedy", id := 1, position := ⟨10, 20⟩ }],
    waypoints :=
      [{ id := 10, magvar := 0, ident := "ALB", region := "K6", type := "NAMED",
         position := ⟨15, 25⟩ }],
    airways := [] }

/-- C4: every navpoint struct is valid exactly when its position is;
over a well-formed database every entry of a read result has a valid
position; an unresolved token is dropped with one logged message and
parsing continues; and an ambiguous ident is matched by closest
distance to the reference point. -/
theorem resolved_navpoint_invariant :
    (∀ a : MapAirport, a.isValid = a.position.isValid) ∧
    (∀ v : MapVor, v.isValid = v.position.isValid) ∧
    (∀ n : MapNdb, n.isValid = n.position.isValid) ∧
    (∀ w : MapWaypoint, w.isValid = w.position.isValid) ∧
    (∀ u : MapUserpoint, u.isValid = u.position.isValid) ∧
    (∀ r : MapRunwayEnd, r.isValid = r.position.isValid) ∧
    (∀ p : MapParking, p.isValid = p.position.isValid) ∧
    (∀ s : MapStart, s.isValid = s.position.isValid) ∧
    (∀ db : NavDatabase, WfDb db → ∀ (text : String) (o : Nat),
      ∀ e ∈ (readRouteString db text o).plan.entries, e.position.isValid = true) ∧
    (∀ (db : NavDatabase) (st : ReaderState) (t : String) (rest : List String),
      t ≠ "DCT" → parseSpeedAlt t = none → lookupAirway db t = none →
      resolveWaypoint db st.lastPos t = none →
      readBody db st (t :: rest) =
        readBody db { st with msgs := st.msgs ++ [unresolvedMsg t] } rest) ∧
    (∀ (db : NavDatabase) (p : Pos) (ident : String) (w : MapWaypoint),
      resolveWaypoint db (some p) ident = some w →
      w ∈ waypointCandidates db ident ∧
        ∀ c ∈ waypointCandidates db ident, dist2 w.position p ≤ dist2 c.position p) :=
  ⟨fun _ => rfl, fun _ => rfl, fun _ => rfl, fun _ => rfl, fun _ => rfl, fun _ => rfl,
   fun _ => rfl, fun _ => rfl,
   fun db hdb text o => readRouteString_valid db hdb text o,
   fun db st t rest h1 h2 h3 h4 => unresolved_skip_aux db st t rest h1 h2 h3 h4,
   fun db p ident w h => resolveWaypoint_nearest db p ident w h⟩

/-- Witness for C4: over the concrete database the KJFK entry of a
concrete read has a valid position. -/
theorem resolved_navpoint_invariant_witness :
    WfDb dbW ∧
    (⟨"KJFK", ⟨10, 20⟩, ""⟩ : FlightplanEntry) ∈
      (readRouteString dbW "KJFK ALB" 0).plan.entries ∧
    (⟨"KJFK", ⟨10, 20⟩, ""⟩ : FlightplanEntry).position.isValid = true :=
  ⟨by unfold WfDb; decide, by decide,
   resolved_navpoint_invariant.2.2.2.2.2.2.2.2.1 dbW (by unfold WfDb; decide) "KJFK ALB" 0
     ⟨"KJFK", ⟨10, 20⟩, ""⟩ (by decide)⟩

/-! ## Option bit lemmas -/

/-- Bit view of the and-not update on the 32-bit flag set. -/
theorem testBit_andNot32 (x y i : Nat) :
    (andNot32 x y).testBit i = (x.testBit i && (decide (i < 32) ^^ y.testBit i)) := by
  unfold andNot32 optionsMask optionsWidth
  rw [Nat.testBit_and, Nat.testBit_xor, Nat.testBit_two_pow_sub_one]

/-- Bits at or above the width of a bounded value are clear. -/
theorem testBit_high_bits (x i : Nat) (hx : x < 2 ^ 32) (hi : 32 ≤ i) : x.testBit i = false :=
  Nat.testBit_lt_two_pow (lt_of_lt_of_le hx (Nat.pow_le_pow_right (by norm_num) hi))

/-- Or-ing in an already set single bit changes nothing. -/
theorem lor_two_pow_eq_self (x j : Nat) (h : x.testBit j = true) : x ||| 2 ^ j = x := by
  apply Nat.eq_of_testBit_eq
  intro i
  rw [Nat.testBit_or, Nat.testBit_two_pow]
  by_cases hij : j = i
  · subst hij
    simp [h]
  · simp [hij]

/-- Clearing an already clear single bit changes nothing on a 32-bit
value. -/
theorem andNot32_two_pow_eq_self (x j : Nat) (hx : x < 2 ^ 32) (h : x.testBit j = false) :
    andNot32 x (2 ^ j) = x := by
  apply Nat.eq_of_testBit_eq
  intro i
  rw [testBit_andNot32, Nat.testBit_two_pow]
  by_cases hij : j = i
  · subst hij
    simp [h]
  · by_cases hi : i < 32
    · simp [hij, hi]
    · simp [testBit_high_bits x i hx (by omega)]

/-- The checked state computed by updateButtonState is exactly the
corresponding options bit. -/
theorem and_two_pow_ne_zero_iff (j x : Nat) : ((2 ^ j &&& x) != 0) = x.testBit j := by
  cases hb : x.testBit j with
  | false =>
    have hz : 2 ^ j &&& x = 0 := by
      apply Nat.eq_of_testBit_eq
      intro i
      rw [Nat.testBit_and, Nat.testBit_two_pow, Nat.zero_testBit]
      by_cases hij : j = i
      · subst hij
        simp [hb]
      · simp [hij]
    rw [hz]
    rfl
  | true =>
    have hnz : 2 ^ j &&& x ≠ 0 := by
      intro hz
      have hcongr := congrArg (fun n => n.testBit j) hz
      simp only [Nat.testBit_and, Nat.testBit_two_pow_self, Nat.zero_testBit, hb,
        Bool.and_true] at hcongr
      exact Bool.noConfusion hcongr
    simp [hnz]

/-- One step of the copy loop keeps the value below the flag width. -/
theorem optionStep_lt (o : Nat) (a : MenuAction) (ho : o < 2 ^ 32) (hf : a.flagBits < 2 ^ 32) :
    (if a.checked then o ||| a.flagBits else andNot32 o a.flagBits) < 2 ^ 32 := by
  split
  · apply Nat.lt_pow_two_of_testBit
    intro i hi
    rw [Nat.testBit_or, testBit_high_bits o i ho hi, testBit_high_bits a.flagBits i hf hi]
    rfl
  · exact lt_of_le_of_lt Nat.and_le_left ho

/-- A bit clear in every flag of the list is clear in the all-flags
union. -/
theorem allFlagsUnion_testBit_false (i : Nat) :
    ∀ acts : List MenuAction, (∀ a ∈ acts, a.flagBits.testBit i = false) →
      (allFlagsUnion acts).testBit i = false := by
  intro acts
  induction acts with
  | nil => intro _; simp [allFlagsUnion]
  | cons a rest ih =>
    intro h
    show (a.flagBits ||| allFlagsUnion rest).testBit i = false
    rw [Nat.testBit_or, h a (by simp), ih (fun b hb => h b (by simp [hb]))]
    rfl

/-- A bit clear in every flag of the list is clear in the checked
union. -/
theorem checkedUnion_testBit_false (i : Nat) :
    ∀ acts : List MenuAction, (∀ a ∈ acts, a.flagBits.testBit i = false) →
      (checkedUnion acts).testBit i = false := by
  intro acts
  induction acts with
  | nil => intro _; simp [checkedUnion]
  | cons a rest ih =>
    intro h
    show ((if a.checked then a.flagBits else 0) ||| checkedUnion rest).testBit i = false
    rw [Nat.testBit_or, ih (fun b hb => h b (by simp [hb]))]
    cases hc : a.checked
    · simp
    · simp [h a (by simp)]

/-- Every menu action flag is a single bit below the width. -/
theorem menuActionFlags_shape (b : Bool) :
    ∀ f ∈ menuActionFlags b, ∃ j, j < 32 ∧ f = 2 ^ j := by
  intro f hf
  unfold menuActionFlags at hf
  rcases List.mem_append.mp hf with hf | hf
  · rcases List.mem_append.mp hf with hf | hf
    · simp only [List.mem_cons, List.not_mem_nil, or_false] at hf
      rcases hf with rfl | rfl | rfl | rfl | rfl
      exacts [⟨0, by norm_num, rfl⟩, ⟨1, by norm_num, rfl⟩, ⟨2, by norm_num, rfl⟩,
              ⟨3, by norm_num, rfl⟩, ⟨4, by norm_num, rfl⟩]
    · cases b
      · simp at hf
      · simp only [if_true, List.mem_singleton] at hf
        subst hf
        exact ⟨5, by norm_num, rfl⟩
  · simp only [List.mem_cons, List.not_mem_nil, or_false] at hf
    rcases hf with rfl | rfl | rfl | rfl | rfl | rfl | rfl
    exacts [⟨6, by norm_num, rfl⟩, ⟨7, by norm_num, rfl⟩, ⟨8, by norm_num, rfl⟩,
            ⟨9, by norm_num, rfl⟩, ⟨10, by norm_num, rfl⟩, ⟨11, by norm_num, rfl⟩,
            ⟨12, by norm_num, rfl⟩]

/-- C9: checking the menu from the options (updateButtonState)
followed by the copy-back loop (toolButtonOptionTriggered) leaves any
32-bit options value unchanged, whether or not the SID_STAR action is
present. -/
theorem options_menu_sync_roundtrip (hasSidStarInDatabase : Bool) (options : Nat)
    (h : options < 2 ^ 32) :
    toolButtonOptionTriggered
        (updateButtonState (menuActionFlags hasSidStarInDatabase) options) options = options := by
  have haux : ∀ (flags : List Nat), (∀ f ∈ flags, ∃ j, j < 32 ∧ f = 2 ^ j) →
      toolButtonOptionTriggered (updateButtonState flags options) options = options := by
    intro flags
    induction flags with
    | nil => intro _; rfl
    | cons f fs ih =>
      intro hf
      obtain ⟨j, hj, hfe⟩ := hf f (List.mem_cons_self f fs)
      subst hfe
      have hstep : toolButtonOptionTriggered (updateButtonState (2 ^ j :: fs) options) options =
          toolButtonOptionTriggered (updateButtonState fs options)
            (if ((2 ^ j &&& options) != 0) = true then options ||| 2 ^ j
             else andNot32 options (2 ^ j)) := rfl
      rw [hstep]
      have hid : (if ((2 ^ j &&& options) != 0) = true then options ||| 2 ^ j
          else andNot32 options (2 ^ j)) = options := by
        rw [and_two_pow_ne_zero_iff]
        cases hb : options.testBit j
        · simp only [Bool.false_eq_true, if_false]
          exact andNot32_two_pow_eq_self options j h hb
        · simp only [if_true]
          exact lor_two_pow_eq_self options j hb
      rw [hid]
      exact ih (fun g hg => hf g (by simp [hg]))
  exact haux (menuActionFlags hasSidStarInDatabase) (menuActionFlags_shape hasSidStarInDatabase)

/-- Counterexample for C5 as stated: with every menu action unchecked
and a prior options value holding the REPORT bit (which no menu action
represents), the copy loop does not return the bare union of the
checked flags (the empty union) but keeps the REPORT bit. -/
theorem toolButton_exact_union_counterexample :
    toolButtonOptionTriggered (updateButtonState (menuActionFlags true) 0) RSOption.REPORT.bit
      ≠ checkedUnion (updateButtonState (menuActionFlags true) 0) := by
  decide

/-- C5 (amended): for pairwise-distinct single-bit action flags the
copy loop yields exactly the union of the checked actions' flags,
or-ed with the prior options bits not represented by any action; in
particular on the action-represented bits it is exactly the checked
union, and no flag update touches another flag's bit. -/
theorem toolButton_copy_formula :
    ∀ (acts : List MenuAction) (options : Nat), options < 2 ^ 32 →
      (∀ a ∈ acts, ∃ j, j < 32 ∧ a.flagBits = 2 ^ j) →
      List.Pairwise (fun a b => a.flagBits ≠ b.flagBits) acts →
      toolButtonOptionTriggered acts options =
        checkedUnion acts ||| andNot32 options (allFlagsUnion acts) := by
  intro acts
  induction acts with
  | nil =>
    intro o ho _ _
    show o = 0 ||| andNot32 o 0
    rw [Nat.zero_or]
    apply Nat.eq_of_testBit_eq
    intro i
    rw [testBit_andNot32, Nat.zero_testBit]
    by_cases hi : i < 32
    · simp [hi]
    · simp [hi, testBit_high_bits o i ho (by omega)]
  | cons a rest ih =>
    intro o ho hbits hdisj
    obtain ⟨j, hj, hfa⟩ := hbits a (List.mem_cons_self a rest)
    have hpair := List.pairwise_cons.mp hdisj
    have hrest_bits : ∀ b ∈ rest, ∃ jb, jb < 32 ∧ b.flagBits = 2 ^ jb :=
      fun b hb => hbits b (by simp [hb])
    have hon : ∀ b ∈ rest, b.flagBits.testBit j = false := by
      intro b hb
      obtain ⟨jb, hjb, hfb⟩ := hrest_bits b hb
      have hne := hpair.1 b hb
      rw [hfb, Nat.testBit_two_pow]
      have hjbne : jb ≠ j := by
        intro he
        subst he
        rw [hfa, hfb] at hne
        exact hne rfl
      simp [hjbne]
    have hflt : a.flagBits < 2 ^ 32 := by
      rw [hfa]
      exact Nat.pow_lt_pow_right (by norm_num) hj
    have hstep_eq : toolButtonOptionTriggered (a :: rest) o =
        toolButtonOptionTriggered rest
          (if a.checked then o ||| a.flagBits else andNot32 o a.flagBits) := rfl
    rw [hstep_eq, ih _ (optionStep_lt o a ho hflt) hrest_bits hpair.2]
    show checkedUnion rest |||
        andNot32 (if a.checked then o ||| a.flagBits else andNot32 o a.flagBits)
          (allFlagsUnion rest) =
      ((if a.checked then a.flagBits else 0) ||| checkedUnion rest) |||
        andNot32 o (a.flagBits ||| allFlagsUnion rest)
    apply Nat.eq_of_testBit_eq
    intro i
    by_cases hi : i < 32
    · by_cases hij : i = j
      · subst hij
        have hAU : (allFlagsUnion rest).testBit i = false := allFlagsUnion_testBit_false i rest hon
        have hCU : (checkedUnion rest).testBit i = false := checkedUnion_testBit_false i rest hon
        cases hc : a.checked
        · simp only [hc, Bool.false_eq_true, if_false]
          simp only [Nat.testBit_or, testBit_andNot32, hAU, hCU, hfa, Nat.testBit_two_pow_self,
            Nat.zero_testBit]
          cases hx : o.testBit i <;> simp [hi]
        · simp only [hc, if_true]
          simp only [Nat.testBit_or, testBit_andNot32, hAU, hCU, hfa, Nat.testBit_two_pow_self]
          cases hx : o.testBit i <;> simp [hi]
      · have hji : j ≠ i := Ne.symm hij
        have hbitj : a.flagBits.testBit i = false := by
          rw [hfa, Nat.testBit_two_pow]
          simp [hji]
        cases hc : a.checked
        · simp only [hc, Bool.false_eq_true, if_false]
          simp only [Nat.testBit_or, testBit_andNot32, hbitj, Nat.zero_testBit]
          cases hx : o.testBit i <;> cases hy : (checkedUnion rest).testBit i <;>
            cases hz : (allFlagsUnion rest).testBit i <;> simp [hi]
        · simp only [hc, if_true]
          simp only [Nat.testBit_or, testBit_andNot32, hbitj]
          cases hx : o.testBit i <;> cases hy : (checkedUnion rest).testBit i <;>
            cases hz : (allFlagsUnion rest).testBit i <;> simp [hi]
    · have honi : ∀ b ∈ rest, b.flagBits.testBit i = false := by
        intro b hb
        obtain ⟨jb, hjb, hfb⟩ := hrest_bits b hb
        have hne2 : jb ≠ i := by omega
        rw [hfb, Nat.testBit_two_pow]
        simp [hne2]
      have hAU : (allFlagsUnion rest).testBit i = false := allFlagsUnion_testBit_false i rest honi
      have hCU : (checkedUnion rest).testBit i = false := checkedUnion_testBit_false i rest honi
      have hbiti : a.flagBits.testBit i = false := testBit_high_bits a.flagBits i hflt (by omega)
      have hoi : o.testBit i = false := testBit_high_bits o i ho (by omega)
      cases hc : a.checked
      · simp only [hc, Bool.false_eq_true, if_false]
        simp only [Nat.testBit_or, testBit_andNot32, hAU, hCU, hoi, hbiti, Nat.zero_testBit]
        simp
      · simp only [hc, if_true]
        simp only [Nat.testBit_or, testBit_andNot32, hAU, hCU, hoi, hbiti]
        simp

/-- Witness for the amended C5: two single-bit actions over the prior
options value five. -/
theorem toolButton_copy_formula_witness :
    (5 : Nat) < 2 ^ 32 ∧
    toolButtonOptionTriggered [⟨1, true⟩, ⟨2, false⟩] 5 =
      checkedUnion [⟨1, true⟩, ⟨2, false⟩] |||
        andNot32 5 (allFlagsUnion [⟨1, true⟩, ⟨2, false⟩]) :=
  ⟨by norm_num,
   toolButton_copy_formula [⟨1, true⟩, ⟨2, false⟩] 5 (by norm_num)
     (by
       intro a ha
       rcases List.mem_cons.mp ha with rfl | ha
       · exact ⟨0, by norm_num, rfl⟩
       rcases List.mem_cons.mp ha with rfl | ha
       · exact ⟨1, by norm_num, rfl⟩
       · simp at ha)
     (by decide)⟩

/-- Witness for C9 at options value 12345 with the SID_STAR action
present. -/
theorem options_menu_sync_roundtrip_witness :
    12345 < 2 ^ 32 ∧
    toolButtonOptionTriggered (updateButtonState (menuActionFlags true) 12345) 12345 = 12345 :=
  ⟨by norm_num, options_menu_sync_roundtrip true 12345 (by norm_num)⟩

/-! ## Round-trip lemmas -/

/-- The flight plan entry a route leg should read back as. -/
def entryOf (l : RouteLeg) : FlightplanEntry :=
  ⟨l.ident, l.position, l.airway⟩

/-- Position of the last leg, or the default when there is none. -/
def lastLegPos (default : Pos) (legs : List RouteLeg) : Pos :=
  match legs.getLast? with
  | some l => l.position
  | none => default

/-- A route's legs are resolvable for the round trip: every leg ident
is a clean token distinct from the instruction vocabulary, absent from
the airport and airway tables, resolving as the unique nearest
waypoint with the leg's position; a leg's airway name, when present,
is a clean non-instruction token whose airway record contains the
previous fix and the leg fix. -/
def ResolvableLegs (db : NavDatabase) : String → Pos → List RouteLeg → Prop
  | _, _, [] => True
  | prevIdent, prevPos, leg :: rest =>
    isCleanToken leg.ident = true ∧
    leg.ident ≠ "DCT" ∧
    parseSpeedAlt leg.ident = none ∧
    lookupAirport db leg.ident = none ∧
    lookupAirway db leg.ident = none ∧
    (∃ w : MapWaypoint, resolveWaypoint db (some prevPos) leg.ident = some w ∧
      w.ident = leg.ident ∧ w.position = leg.position) ∧
    (leg.airway = "" ∨
      (isCleanToken leg.airway = true ∧ leg.airway ≠ "DCT" ∧ parseSpeedAlt leg.airway = none ∧
       ∃ aw : Airway, lookupAirway db leg.airway = some aw ∧ aw.name = leg.airway ∧
         prevIdent ∈ aw.fixes ∧ leg.ident ∈ aw.fixes)) ∧
    ResolvableLegs db leg.ident leg.position rest

/-- Every digit character is a decimal digit. -/
theorem digitChar_isDigit (n : Nat) : (digitChar n).isDigit = true := by
  unfold digitChar
  split <;> decide

/-- Digit lists from numbers are nonempty. -/
theorem natDigits_ne_nil (n : Nat) : natDigits n ≠ [] := by
  unfold natDigits natDigitsAux
  split
  · simp
  · simp

/-- Digit lists from numbers hold digits only. -/
theorem natDigits_all_digit (n : Nat) : ∀ c ∈ natDigits n, c.isDigit = true := by
  unfold natDigits
  generalize hfuel : n + 1 = fuel
  clear hfuel
  induction fuel generalizing n with
  | zero => intro c hc; simp [natDigitsAux] at hc
  | succ fuel ih =>
    intro c hc
    unfold natDigitsAux at hc
    split at hc
    · simp only [List.mem_singleton] at hc
      subst hc
      exact digitChar_isDigit n
    · simp only [List.mem_append, List.mem_singleton] at hc
      rcases hc with hc | hc
      · exact ih (n / 10) c hc
      · subst hc
        exact digitChar_isDigit (n % 10)

/-- takeWhile over an all-satisfying prefix passes it through. -/
theorem takeWhile_append_of_all {α : Type} (p : α → Bool) :
    ∀ (xs ys : List α), (∀ x ∈ xs, p x = true) →
      (xs ++ ys).takeWhile p = xs ++ ys.takeWhile p := by
  intro xs ys
  induction xs with
  | nil => intro _; rfl
  | cons x xs ih =>
    intro h
    simp only [List.cons_append, List.takeWhile_cons, h x (by simp)]
    simp [ih (fun y hy => h y (by simp [hy]))]

/-- dropWhile over an all-satisfying prefix discards it. -/
theorem dropWhile_append_of_all {α : Type} (p : α → Bool) :
    ∀ (xs ys : List α), (∀ x ∈ xs, p x = true) →
      (xs ++ ys).dropWhile p = ys.dropWhile p := by
  intro xs ys
  induction xs with
  | nil => intro _; rfl
  | cons x xs ih =>
    intro h
    simp only [List.cons_append, List.dropWhile_cons, h x (by simp)]
    simp [ih (fun y hy => h y (by simp [hy]))]

/-- The cruise token is never the DCT instruction. -/
theorem speedAltToken_ne_DCT (speed alt : Nat) : speedAltToken speed alt ≠ "DCT" := by
  intro h
  have hd := congrArg String.data h
  simp [speedAltToken] at hd

/-- The cruise-token recognizer on a well-shaped payload. -/
theorem parseSpeedAlt_shaped (ds es : List Char) (h1 : ds ≠ []) (h2 : ∀ c ∈ ds, c.isDigit = true)
    (h3 : es ≠ []) (h4 : ∀ c ∈ es, c.isDigit = true) :
    parseSpeedAlt ⟨'N' :: (ds ++ 'F' :: es)⟩ = some (digitsToNat ds, digitsToNat es * 100) := by
  have htake : (ds ++ 'F' :: es).takeWhile Char.isDigit =
      ds ++ ('F' :: es).takeWhile Char.isDigit :=
    takeWhile_append_of_all _ ds ('F' :: es) h2
  have hdrop : (ds ++ 'F' :: es).dropWhile Char.isDigit =
      ('F' :: es).dropWhile Char.isDigit :=
    dropWhile_append_of_all _ ds ('F' :: es) h2
  have hF : ('F' :: es).takeWhile Char.isDigit = [] := by
    simp [List.takeWhile_cons]
  have hFd : ('F' :: es).dropWhile Char.isDigit = 'F' :: es := by
    simp [List.dropWhile_cons]
  have hds : ds.isEmpty = false := by
    rw [List.isEmpty_eq_false]
    exact h1
  have hes : es.isEmpty = false := by
    rw [List.isEmpty_eq_false]
    exact h3
  have hall : es.all Char.isDigit = true := List.all_eq_true.mpr h4
  unfold parseSpeedAlt
  simp only [htake, hdrop, hF, hFd, List.append_nil]
  rw [if_neg]
  simp [hds, hes, hall]

/-- The reader recognizes every writer-emitted cruise token. -/
theorem parseSpeedAlt_speedAltToken (speed alt : Nat) :
    parseSpeedAlt (speedAltToken speed alt) =
      some (digitsToNat (natDigits speed), digitsToNat (natDigits (alt / 100)) * 100) :=
  parseSpeedAlt_shaped (natDigits speed) (natDigits (alt / 100)) (natDigits_ne_nil speed)
    (natDigits_all_digit speed) (natDigits_ne_nil (alt / 100)) (natDigits_all_digit (alt / 100))

/-- Decimal digits are clean token characters. -/
theorem isCleanChar_of_isDigit (c : Char) (h : c.isDigit = true) : isCleanChar c = true := by
  unfold isCleanChar
  rw [h]
  simp

/-- The writer-emitted cruise token is a clean token. -/
theorem speedAltToken_clean (speed alt : Nat) : isCleanToken (speedAltToken speed alt) = true := by
  unfold isCleanToken speedAltToken
  simp only [Bool.and_eq_true, Bool.not_eq_true', List.isEmpty_eq_false, List.all_eq_true]
  refine ⟨by simp, ?_⟩
  intro c hc
  simp only [List.mem_cons, List.mem_append] at hc
  have hcases : c = 'N' ∨ c ∈ natDigits speed ∨ c = 'F' ∨ c ∈ natDigits (alt / 100) := by
    tauto
  rcases hcases with rfl | h | rfl | h
  · decide
  · exact isCleanChar_of_isDigit c (natDigits_all_digit speed c h)
  · decide
  · exact isCleanChar_of_isDigit c (natDigits_all_digit (alt / 100) c h)

/-- The last element survives one cons when the tail is nonempty. -/
theorem getLast?_cons_ne {α : Type} (x : α) (xs : List α) (h : xs ≠ []) :
    (x :: xs).getLast? = xs.getLast? := by
  cases xs with
  | nil => exact absurd rfl h
  | cons y ys => simp [List.getLast?_cons_cons]

/-- The writer emits at least one token per leg. -/
theorem writeLegs_ne_nil (o : Nat) (pf : Bool) (leg : RouteLeg) (rest : List RouteLeg) :
    writeLegs o pf (leg :: rest) ≠ [] := by
  unfold writeLegs
  split
  · simp
  split
  · simp
  · simp

/-- The last token the writer emits is the last leg's ident. -/
theorem writeLegs_getLast (o : Nat) :
    ∀ (legs : List RouteLeg) (pf : Bool) (leg : RouteLeg), legs.getLast? = some leg →
      (writeLegs o pf legs).getLast? = some leg.ident := by
  intro legs
  induction legs with
  | nil => intro pf leg h; simp at h
  | cons l rest ih =>
    intro pf leg h
    cases rest with
    | nil =>
      have hl : l = leg := by simpa using h
      subst hl
      unfold writeLegs
      split
      · simp [writeLegs]
      split
      · simp [writeLegs]
      · simp [writeLegs]
    | cons l2 rest2 =>
      have h2 : (l2 :: rest2).getLast? = some leg := by
        rw [← getLast?_cons_ne l (l2 :: rest2) (by simp)]
        exact h
      have hw := ih true leg h2
      have hwne : writeLegs o true (l2 :: rest2) ≠ [] := writeLegs_ne_nil o true l2 rest2
      unfold writeLegs
      split
      · rw [getLast?_cons_ne _ _ (by simp), getLast?_cons_ne _ _ hwne]
        exact hw
      split
      · rw [getLast?_cons_ne _ _ (by simp), getLast?_cons_ne _ _ hwne]
        exact hw
      · rw [getLast?_cons_ne _ _ hwne]
        exact hw

/-- Every token the writer emits for resolvable legs is a clean
token. -/
theorem writeLegs_clean (db : NavDatabase) (o : Nat) :
    ∀ (legs : List RouteLeg) (prevI : String) (prevP : Pos) (pf : Bool),
      ResolvableLegs db prevI prevP legs →
      ∀ t ∈ writeLegs o pf legs, isCleanToken t = true := by
  intro legs
  induction legs with
  | nil =>
    intro _ _ _ _ t ht
    simp [writeLegs] at ht
  | cons l rest ih =>
    intro prevI prevP pf hres t ht
    obtain ⟨hclean, hdct, hpsa, hap, haw, hresw, hawcase, hrest⟩ := hres
    unfold writeLegs at ht
    split at ht
    case isTrue hcond =>
      rcases List.mem_cons.mp ht with rfl | ht2
      · rcases hawcase with he | hawr
        · exact absurd he hcond.1
        · exact hawr.1
      rcases List.mem_cons.mp ht2 with rfl | ht3
      · exact hclean
      · exact ih l.ident l.position true hrest t ht3
    case isFalse =>
      split at ht
      · rcases List.mem_cons.mp ht with rfl | ht2
        · decide
        rcases List.mem_cons.mp ht2 with rfl | ht3
        · exact hclean
        · exact ih l.ident l.position true hrest t ht3
      · rcases List.mem_cons.mp ht with rfl | ht2
        · exact hclean
        · exact ih l.ident l.position true hrest t ht2

/-- The last resolvable leg's ident is no airport ident. -/
theorem resolvableLegs_last_no_airport (db : NavDatabase) :
    ∀ (legs : List RouteLeg) (prevI : String) (prevP : Pos),
      ResolvableLegs db prevI prevP legs →
      ∀ leg, legs.getLast? = some leg → lookupAirport db leg.ident = none := by
  intro legs
  induction legs with
  | nil => intro _ _ _ leg h; simp at h
  | cons l rest ih =>
    intro prevI prevP hres leg h
    obtain ⟨_, _, _, hap, _, _, _, hrest⟩ := hres
    cases rest with
    | nil =>
      have hl : l = leg := by simpa using h
      subst hl
      exact hap
    | cons l2 rest2 =>
      have h2 : (l2 :: rest2).getLast? = some leg := by
        rw [← getLast?_cons_ne l (l2 :: rest2) (by simp)]
        exact h
      exact ih l.ident l.position hrest leg h2

/-- A plain ident token always advances by one stepPlain. -/
theorem readBody_plain_any (db : NavDatabase) (st : ReaderState) (t : String) (ts : List String)
    (h1 : t ≠ "DCT") (h2 : parseSpeedAlt t = none) (h3 : lookupAirway db t = none) :
    readBody db st (t :: ts) = readBody db (stepPlain db st t) ts := by
  cases ts with
  | nil =>
    rw [readBody_single, readBody_nil]
    unfold stepSingle
    rw [if_neg h1, h2]
  | cons n r => exact readBody_plain db st t n r h1 h2 h3

/-- A nonempty list has a last element. -/
theorem getLast?_isSome_of_cons {α : Type} :
    ∀ (x : α) (xs : List α), ∃ y, (x :: xs).getLast? = some y := by
  intro x xs
  induction xs generalizing x with
  | nil => exact ⟨x, rfl⟩
  | cons z zs ih =>
    obtain ⟨y, hy⟩ := ih z
    exact ⟨y, by rw [List.getLast?_cons_cons]; exact hy⟩

/-- Pushing the default point over one leg. -/
theorem lastLegPos_cons (p : Pos) (leg : RouteLeg) (rest : List RouteLeg) :
    lastLegPos p (leg :: rest) = lastLegPos leg.position rest := by
  unfold lastLegPos
  cases rest with
  | nil => simp
  | cons r2 rr =>
    rw [getLast?_cons_ne leg _ (by simp)]
    obtain ⟨y, hy⟩ := getLast?_isSome_of_cons r2 rr
    rw [hy]

/-- The reader walks the writer's leg tokens back into exactly the
route's legs: identifiers, positions and airway names are reproduced
and the last position follows the last leg. -/
theorem readBody_writeLegs (db : NavDatabase) (o : Nat)
    (hD : hasOpt o RSOption.DCT = true) (hNA : hasOpt o RSOption.NO_AIRWAYS = false) :
    ∀ (legs : List RouteLeg) (st : ReaderState) (prevI : String) (prevP : Pos),
      ResolvableLegs db prevI prevP legs →
      lastIdent st = some prevI →
      st.lastPos = some prevP →
      readBody db st (writeLegs o true legs) =
        { st with entries := st.entries ++ legs.map entryOf,
                  lastPos := some (lastLegPos prevP legs) } := by
  intro legs
  induction legs with
  | nil =>
    intro st prevI prevP _ _ hlp
    show readBody db st [] = _
    rw [readBody_nil]
    cases st with
    | mk e a m lp s ai =>
      simp only [List.map_nil, List.append_nil]
      have hlp2 : lp = some prevP := hlp
      rw [hlp2]
      rfl
  | cons leg rest ih =>
    intro st prevI prevP hres hli hlp
    obtain ⟨hclean, hdct, hpsa, hap, haw, ⟨w, hw, hwid, hwpos⟩, hawcase, hrest⟩ := hres
    by_cases hairway : leg.airway = ""
    · have hwl : writeLegs o true (leg :: rest) =
          "DCT" :: leg.ident :: writeLegs o true rest := by
        rw [writeLegs]
        rw [if_neg (by simp [hairway]), if_pos ⟨hD, rfl⟩]
      rw [hwl, readBody_dct, readBody_plain_any db st leg.ident _ hdct hpsa haw]
      have hsp : stepPlain db st leg.ident =
          { st with entries := st.entries ++ [entryOf leg], lastPos := some leg.position } := by
        unfold stepPlain
        rw [hlp, hw]
        show ({ st with entries := st.entries ++ [⟨w.ident, w.position, ""⟩], lastPos := some w.position } : ReaderState) = _
        rw [hwid, hwpos]
        unfold entryOf
        rw [hairway]
      rw [hsp]
      have hli2 : lastIdent ({ st with entries := st.entries ++ [entryOf leg], lastPos := some leg.position }) = some leg.ident := by
        unfold lastIdent entryOf
        simp
      rw [ih _ leg.ident leg.position hrest hli2 rfl]
      simp [List.append_assoc, lastLegPos_cons]
    · rcases hawcase with he | ⟨hawclean, hawdct, hawpsa, aw, hawlook, hawname, hprevmem, hidmem⟩
      · exact absurd he hairway
      have hwl : writeLegs o true (leg :: rest) =
          leg.airway :: leg.ident :: writeLegs o true rest := by
        rw [writeLegs]
        rw [if_pos ⟨hairway, by simp [hNA]⟩]
      rw [hwl, readBody_airway db st leg.airway leg.ident (writeLegs o true rest) aw prevI
        hawdct hawpsa hawlook hli ⟨hprevmem, hidmem⟩]
      have hsf : stepAirwayFix db st aw leg.ident =
          { st with entries := st.entries ++ [entryOf leg], lastPos := some leg.position } := by
        unfold stepAirwayFix
        rw [hlp, hw]
        show ({ st with entries := st.entries ++ [⟨w.ident, w.position, aw.name⟩], lastPos := some w.position } : ReaderState) = _
        rw [hwid, hwpos, hawname]
        rfl
      rw [hsf]
      have hli2 : lastIdent ({ st with entries := st.entries ++ [entryOf leg], lastPos := some leg.position }) = some leg.ident := by
        unfold lastIdent entryOf
        simp
      rw [ih _ leg.ident leg.position hrest hli2 rfl]
      simp [List.append_assoc, lastLegPos_cons]

/-- When the token before the destination does not resolve to an
airport (or there is none), the alternates split leaves everything in
the main part. -/
theorem splitAlternates_no_alts (db : NavDatabase) (o : Nat) (body : List String) (dest : String)
    (hbody : body = [] ∨ ∃ btoks lastTok, body = btoks ++ [lastTok] ∧
      lookupAirport db lastTok = none) :
    splitAlternates db o (body ++ [dest]) = (body ++ [dest], []) := by
  unfold splitAlternates
  split
  case isTrue h =>
    have hlen : ((body ++ [dest]).reverse.takeWhile
        (fun t => (lookupAirport db t).isSome)).length ≤ 1 := by
      rw [List.reverse_append]
      simp only [List.reverse_singleton, List.singleton_append]
      rw [List.takeWhile_cons]
      split
      · rcases hbody with rfl | ⟨btoks, lastTok, rfl, hlast⟩
        · simp
        · rw [List.reverse_append]
          simp only [List.reverse_singleton, List.singleton_append]
          rw [List.takeWhile_cons, if_neg (by simp [hlast])]
          simp
      · simp
    rw [if_neg (by omega)]
  case isFalse => rfl

/-- The cruise token updates the cruise data and nothing else. -/
theorem readBody_speedtok (db : NavDatabase) (st : ReaderState) (ts : List String)
    (speed alt : Nat) :
    readBody db st (speedAltToken speed alt :: ts) =
      readBody db
        { st with speed := some (digitsToNat (natDigits speed)), altIncluded := true } ts := by
  cases ts with
  | nil =>
    rw [readBody_single, readBody_nil]
    unfold stepSingle
    rw [if_neg (speedAltToken_ne_DCT speed alt), parseSpeedAlt_speedAltToken]
  | cons n r =>
    rw [readBody_speedAlt db st _ n r _ (speedAltToken_ne_DCT speed alt)
      (parseSpeedAlt_speedAltToken speed alt)]

/-- Unfolding of the reader on a nonempty cleaned token list. -/
theorem readRouteString_cons (db : NavDatabase) (o : Nat) (text : String) (first : String)
    (rest : List String) (h : cleanRouteString text = first :: rest) :
    readRouteString db text o =
      (let st1 := readStart db o initialReaderState first
       let split := splitAlternates db o rest
       let st2 := readBody db st1 split.1.dropLast
       let st3 :=
         match split.1.getLast? with
         | some dest => readEnd db o st2 dest
         | none => st2
       let st4 := readAlternates db st3 split.2
       ⟨⟨st4.entries, st4.alternates⟩, st4.msgs, st4.speed, st4.altIncluded⟩) := by
  unfold readRouteString
  rw [h]

/-- readStart on a resolvable airport token appends its entry. -/
theorem readStart_airport (db : NavDatabase) (o : Nat) (st : ReaderState) (t : String)
    (ap : MapAirport) (hRNA : hasOpt o RSOption.READ_NO_AIRPORTS = false)
    (hap : lookupAirport db t = some ap) :
    readStart db o st t =
      { st with entries := st.entries ++ [⟨ap.ident, ap.position, ""⟩],
                lastPos := some ap.position } := by
  unfold readStart
  rw [if_neg (by simp [hRNA]), hap]

/-- readEnd on a resolvable airport token appends its entry. -/
theorem readEnd_airport (db : NavDatabase) (o : Nat) (st : ReaderState) (t : String)
    (ap : MapAirport) (hRNA : hasOpt o RSOption.READ_NO_AIRPORTS = false)
    (hap : lookupAirport db t = some ap) :
    readEnd db o st t =
      { st with entries := st.entries ++ [⟨ap.ident, ap.position, ""⟩],
                lastPos := some ap.position } := by
  unfold readEnd
  rw [if_neg (by simp [hRNA]), hap]

/-- C1 (amended): for a route of resolvable airports, waypoints and
airways without procedures or alternates, and any options including
START_AND_DEST and DCT and excluding the procedure-specific flags,
NO_AIRWAYS and READ_NO_AIRPORTS, reading the written route string
reproduces exactly the departure, the legs with their positions and
airway names, and the destination, with no diagnostics and no
alternates. -/
theorem route_roundtrip (db : NavDatabase) (r : Route) (speed alt : Nat) (o : Nat)
    (hS : hasOpt o RSOption.START_AND_DEST = true)
    (hD : hasOpt o RSOption.DCT = true)
    (hNA : hasOpt o RSOption.NO_AIRWAYS = false)
    (hRNA : hasOpt o RSOption.READ_NO_AIRPORTS = false)
    (halts : r.alternates = [])
    (hdepc : isCleanToken r.departure.ident = true)
    (hdep : lookupAirport db r.departure.ident = some r.departure)
    (hdestc : isCleanToken r.destination.ident = true)
    (hdest : lookupAirport db r.destination.ident = some r.destination)
    (hsa : lookupAirport db (speedAltToken speed alt) = none)
    (hlegs : ResolvableLegs db r.departure.ident r.departure.position r.legs) :
    (readRouteString db (createStringForRoute r speed alt o) o).plan.entries =
      ⟨r.departure.ident, r.departure.position, ""⟩ ::
        (r.legs.map entryOf ++ [⟨r.destination.ident, r.destination.position, ""⟩]) ∧
    (readRouteString db (createStringForRoute r speed alt o) o).plan.alternates = [] ∧
    (readRouteString db (createStringForRoute r speed alt o) o).messages = [] := by
  have hwlclean : ∀ t ∈ writeLegs o true r.legs, isCleanToken t = true :=
    writeLegs_clean db o r.legs r.departure.ident r.departure.position true hlegs
  have hbody : writeLegs o true r.legs = [] ∨
      ∃ btoks lastTok, writeLegs o true r.legs = btoks ++ [lastTok] ∧
        lookupAirport db lastTok = none := by
    cases hlegs0 : r.legs with
    | nil =>
      left
      rfl
    | cons l ls =>
      right
      obtain ⟨lastLeg, hlast⟩ := getLast?_isSome_of_cons l ls
      have hwgl := writeLegs_getLast o (l :: ls) true lastLeg hlast
      obtain ⟨init, hinit⟩ := List.getLast?_eq_some_iff.mp hwgl
      exact ⟨init, lastLeg.ident, hinit,
        resolvableLegs_last_no_airport db (l :: ls) r.departure.ident r.departure.position
          (hlegs0 ▸ hlegs) lastLeg hlast⟩
  have hst1 := readStart_airport db o initialReaderState r.departure.ident r.departure hRNA hdep
  have hli1 : lastIdent ({ initialReaderState with
      entries := initialReaderState.entries ++ [⟨r.departure.ident, r.departure.position, ""⟩],
      lastPos := some r.departure.position }) = some r.departure.ident := by
    unfold lastIdent initialReaderState
    simp
  cases hAS : hasOpt o RSOption.ALT_AND_SPEED with
  | false =>
    have htoks : writeTokens r speed alt o =
        r.departure.ident :: (writeLegs o true r.legs ++ [r.destination.ident]) := by
      unfold writeTokens
      rw [if_pos hS, if_pos hS, halts, if_neg (by simp [hAS])]
      cases hALT : hasOpt o RSOption.ALTERNATES <;> simp [hS]
    have hallclean : ∀ t ∈ writeTokens r speed alt o, isCleanToken t = true := by
      intro t ht
      rw [htoks] at ht
      rcases List.mem_cons.mp ht with rfl | ht
      · exact hdepc
      rcases List.mem_append.mp ht with ht | ht
      · exact hwlclean t ht
      · have hteq : t = r.destination.ident := by simpa using ht
        subst hteq
        exact hdestc
    have hcrs : cleanRouteString (createStringForRoute r speed alt o) =
        r.departure.ident :: (writeLegs o true r.legs ++ [r.destination.ident]) := by
      unfold createStringForRoute
      rw [cleanRouteString_joinWords _ hallclean]
      exact htoks
    rw [readRouteString_cons db o _ _ _ hcrs]
    simp only [hst1, splitAlternates_no_alts db o _ _ hbody, List.dropLast_concat,
      List.getLast?_concat]
    rw [readBody_writeLegs db o hD hNA r.legs _ r.departure.ident r.departure.position hlegs
      hli1 rfl]
    rw [readEnd_airport db o _ r.destination.ident r.destination hRNA hdest]
    unfold initialReaderState readAlternates entryOf
    simp
  | true =>
    have htoks : writeTokens r speed alt o =
        r.departure.ident ::
          (speedAltToken speed alt :: writeLegs o true r.legs ++ [r.destination.ident]) := by
      unfold writeTokens
      rw [if_pos hS, if_pos hS, halts, if_pos hAS]
      cases hALT : hasOpt o RSOption.ALTERNATES <;> simp [hS]
    have hallclean : ∀ t ∈ writeTokens r speed alt o, isCleanToken t = true := by
      intro t ht
      rw [htoks] at ht
      rcases List.mem_cons.mp ht with rfl | ht
      · exact hdepc
      rcases List.mem_cons.mp ht with rfl | ht
      · exact speedAltToken_clean speed alt
      rcases List.mem_append.mp ht with ht | ht
      · exact hwlclean t ht
      · have hteq : t = r.destination.ident := by simpa using ht
        subst hteq
        exact hdestc
    have hcrs : cleanRouteString (createStringForRoute r speed alt o) =
        r.departure.ident ::
          ((speedAltToken speed alt :: writeLegs o true r.legs) ++ [r.destination.ident]) := by
      unfold createStringForRoute
      rw [cleanRouteString_joinWords _ hallclean]
      rw [htoks]
    have hbody2 : (speedAltToken speed alt :: writeLegs o true r.legs) = [] ∨
        ∃ btoks lastTok, (speedAltToken speed alt :: writeLegs o true r.legs) =
          btoks ++ [lastTok] ∧ lookupAirport db lastTok = none := by
      right
      rcases hbody with hnil | ⟨btoks, lastTok, heq, hlap⟩
      · exact ⟨[], speedAltToken speed alt, by rw [hnil]; simp, hsa⟩
      · exact ⟨speedAltToken speed alt :: btoks, lastTok, by rw [heq]; simp, hlap⟩
    rw [readRouteString_cons db o _ _ _ hcrs]
    simp only [hst1, splitAlternates_no_alts db o _ _ hbody2, List.dropLast_concat,
      List.getLast?_concat]
    rw [readBody_speedtok]
    rw [readBody_writeLegs db o hD hNA r.legs _ r.departure.ident r.departure.position hlegs
      (by unfold lastIdent at hli1 ⊢; simp) rfl]
    rw [readEnd_airport db o _ r.destination.ident r.destination hRNA hdest]
    unfold initialReaderState readAlternates entryOf
    simp

/-- Concrete departure airport for the round-trip examples. -/
def apKJFK : MapAirport :=
  { ident := "KJFK", name := "Kennedy", id := 1, position := ⟨10, 20⟩ }

/-- Concrete destination airport for the round-trip examples. -/
def apKBOS : MapAirport :=
  { ident := "KBOS", name := "Boston", id := 2, position := ⟨30, 40⟩ }

/-- Concrete en-route waypoint ALB. -/
def wpALB : MapWaypoint :=
  { id := 10, magvar := 0, ident := "ALB", region := "K6", type := "NAMED",
    position := ⟨15, 25⟩ }

/-- Concrete en-route waypoint BOS. -/
def wpBOS : MapWaypoint :=
  { id := 11, magvar := 0, ident := "BOS", region := "K6", type := "NAMED",
    position := ⟨28, 38⟩ }

/-- Concrete database for the round-trip examples. -/
def dbC1 : NavDatabase :=
  { airports := [apKJFK, apKBOS], waypoints := [wpALB, wpBOS],
    airways := [⟨"J121", ["ALB", "BOS"]⟩] }

/-- Concrete route KJFK, direct ALB, J121 BOS, KBOS. -/
def rC1 : Route :=
  { departure := apKJFK,
    legs := [⟨"ALB", ⟨15, 25⟩, ""⟩, ⟨"BOS", ⟨28, 38⟩, "J121"⟩],
    destination := apKBOS,
    alternates := [] }

/-- Options with departure and destination plus DCT. -/
def oGoodC1 : Nat := RSOption.START_AND_DEST.bit ||| RSOption.DCT.bit

/-- The same options with NO_AIRWAYS added. -/
def oBadC1 : Nat := oGoodC1 ||| RSOption.NO_AIRWAYS.bit

/-- Counterexample for C1 as stated: the options value with
START_AND_DEST and DCT and without any procedure-specific flag may
still contain NO_AIRWAYS, and then the written string drops the
airway names, so the read-back does not preserve them. -/
theorem route_roundtrip_counterexample :
    hasOpt oBadC1 RSOption.START_AND_DEST = true ∧
    hasOpt oBadC1 RSOption.DCT = true ∧
    hasOpt oBadC1 RSOption.SID_STAR = false ∧
    hasOpt oBadC1 RSOption.SID_STAR_GENERIC = false ∧
    hasOpt oBadC1 RSOption.SID_STAR_NONE = false ∧
    hasOpt oBadC1 RSOption.STAR_REV_TRANSITION = false ∧
    hasOpt oBadC1 RSOption.SID_STAR_SPACE = false ∧
    (readRouteString dbC1 (createStringForRoute rC1 420 35000 oBadC1) oBadC1).plan.entries ≠
      ⟨rC1.departure.ident, rC1.departure.position, ""⟩ ::
        (rC1.legs.map entryOf ++
         [⟨rC1.destination.ident, rC1.destination.position, ""⟩]) := by
  decide

/-- The concrete route's legs satisfy the resolvability conditions. -/
theorem rC1_legs_resolvable : ResolvableLegs dbC1 "KJFK" ⟨10, 20⟩ rC1.legs :=
  ⟨by decide, by decide, by decide, by decide, by decide,
   ⟨wpALB, by decide, by decide, by decide⟩, Or.inl rfl,
   by decide, by decide, by decide, by decide, by decide,
   ⟨wpBOS, by decide, by decide, by decide⟩,
   Or.inr ⟨by decide, by decide, by decide,
     ⟨⟨"J121", ["ALB", "BOS"]⟩, by decide, by decide, by decide, by decide⟩⟩,
   trivial⟩

/-- Witness for the amended C1: the concrete route round-trips through
write and read with identifiers, positions and airway names
preserved. -/
theorem route_roundtrip_witness :
    hasOpt oGoodC1 RSOption.START_AND_DEST = true ∧
    hasOpt oGoodC1 RSOption.DCT = true ∧
    hasOpt oGoodC1 RSOption.NO_AIRWAYS = false ∧
    hasOpt oGoodC1 RSOption.READ_NO_AIRPORTS = false ∧
    rC1.alternates = [] ∧
    (readRouteString dbC1 (createStringForRoute rC1 420 35000 oGoodC1) oGoodC1).plan.entries =
      ⟨rC1.departure.ident, rC1.departure.position, ""⟩ ::
        (rC1.legs.map entryOf ++
         [⟨rC1.destination.ident, rC1.destination.position, ""⟩]) :=
  ⟨by decide, by decide, by decide, by decide, rfl,
   (route_roundtrip dbC1 rC1 420 35000 oGoodC1 (by decide) (by decide) (by decide) (by decide)
     rfl (by decide) (by decide) (by decide) (by decide) (by decide) rC1_legs_resolvable).1⟩

/-- C10: for MapRunway, MapRunwayEnd, MapApron, MapTaxiPath,
MapParking and MapHelipad, getId returns -1 for every value of the
struct; in particular MapParking carries a database id field that
getId does not return. -/
theorem getId_minus_one_structs :
    (∀ r : MapRunway, r.getId = -1) ∧
    (∀ r : MapRunwayEnd, r.getId = -1) ∧
    (∀ a : MapApron, a.getId = -1) ∧
    (∀ t : MapTaxiPath, t.getId = -1) ∧
    (∀ p : MapParking, p.getId = -1) ∧
    (∀ h : MapHelipad, h.getId = -1) ∧
    (∃ p : MapParking, p.getId ≠ p.id) := by
  refine ⟨fun _ => rfl, fun _ => rfl, fun _ => rfl, fun _ => rfl, fun _ => rfl, fun _ => rfl, ?_⟩
  exact ⟨⟨"GATE", "A1", "", 5, 1, ⟨0, 0⟩, 1, 10, 0, false⟩, by decide⟩

/-- C3: reading the empty input yields the empty Flightplan, no
diagnostics, and altitudeIncluded false, for every database and
options value. -/
theorem readRouteString_empty_input (db : NavDatabase) (o : Nat) :
    readRouteString db "" o = ⟨⟨[], []⟩, [], none, false⟩ :=
  rfl

/-- C6: each read call of the dialog operates on a freshly cleared
flight plan, so two invocations with the same input text and options
produce the same result whatever the previously produced flight plans
contained. -/
theorem textChangedDelayed_fresh (db : NavDatabase) (fp₁ fp₂ : Flightplan) (text : String)
    (o : Nat) :
    textChangedDelayed db fp₁ text o = textChangedDelayed db fp₂ text o :=
  rfl

/-- C8: the options bit set round-trips through the integer
persistence of saveState and getOptionsFromSettings. -/
theorem options_persistence_roundtrip (o : Nat) (h : o < 2 ^ 32) :
    getOptionsFromSettings (saveStateOptions o) = o := by
  unfold getOptionsFromSettings saveStateOptions
  split <;> omega

/-- Witness for C8 at a value with the sign bit set. -/
theorem options_persistence_roundtrip_witness :
    2 ^ 31 + 5 < 2 ^ 32 ∧ getOptionsFromSettings (saveStateOptions (2 ^ 31 + 5)) = 2 ^ 31 + 5 :=
  ⟨by norm_num, options_persistence_roundtrip (2 ^ 31 + 5) (by norm_num)⟩

end LNM
